import Mathlib

/-!
Verification of the OTPL-to-brat converter (otplc).

This file gives a shallow embedding of the column-specification engine
(`otplc/colspec.py`), the column guesser (`otplc/reader.py`) and the
converter (`otplc/converter.py`), and settles the frozen claims about them.

Conventions of the embedding:
* Python lists of strings become `List String`; rows are `List String` and
  segments are `List (List String)`.
* Python `raise` becomes `Except`: every distinct raise site gets its own
  constructor of an error type, so that which exception fires is visible.
* Python integers are `Int` where negative values matter (list indices via
  Python's negative-index wrap-around are modelled by `pyGetNat`), `Nat`
  otherwise.
-/

namespace Otplc

/-! ### Column role constants (`ColumnSpecification` class attributes) -/

-- Values copied from otplc/colspec.py lines 163-203.
def UNKNOWN : Nat := 0
def TOKEN : Nat := 1
def SEGMENT_ID : Nat := 2
def GLOBAL_ENUM : Nat := 3
def LOCAL_ENUM : Nat := 4
def POS_TAG : Nat := 5
def ENTITY : Nat := 6
def NORMALIZATION : Nat := 7
def RELATION : Nat := 8
def EVENT : Nat := 9
def ATTRIBUTE : Nat := 10
def LOCAL_REF : Nat := 11
def GLOBAL_REF : Nat := 12
def ANNOT : Nat := 99

/-- NAMES mapping of `ColumnSpecificationMetaClass` (name to integer). -/
def NAMES : List (String × Nat) :=
  [("_ANNOTATION", ANNOT), ("_UNKNOWN", UNKNOWN),
   ("LOCAL_ENUM", LOCAL_ENUM), ("GLOBAL_ENUM", GLOBAL_ENUM),
   ("SEGMENT_ID", SEGMENT_ID), ("TOKEN", TOKEN), ("POS_TAG", POS_TAG),
   ("ENTITY", ENTITY), ("NORMALIZATION", NORMALIZATION),
   ("RELATION", RELATION), ("EVENT", EVENT), ("ATTRIBUTE", ATTRIBUTE),
   ("LOCAL_REF", LOCAL_REF), ("GLOBAL_REF", GLOBAL_REF)]

/-- INTEGERS mapping (integer to name), the inverse of `NAMES`. -/
def INTEGERS : List (Nat × String) := NAMES.map (fun p => (p.2, p.1))

def nameOfRole (r : Nat) : String := ((INTEGERS.lookup r).getD "_TYPE_")

/-- Set `_ENTITY_COLUMNS = frozenset((POS_TAG, ENTITY))`. -/
def entityColumns : List Nat := [POS_TAG, ENTITY]

/-- Set `_SKIPPED_COLUMNS` (colspec.py line 219). -/
def skippedColumns : List Nat :=
  [GLOBAL_REF, LOCAL_REF, ATTRIBUTE, NORMALIZATION, EVENT, RELATION]

/-- Set `_PROPERTY_TARGET_COLUMNS = frozenset((POS_TAG, ENTITY, RELATION, EVENT))`. -/
def propertyTargetColumns : List Nat := [POS_TAG, ENTITY, RELATION, EVENT]

/-! ### ColumnSpecification construction (colspec.py) -/

/-- Errors of specification construction: one constructor per distinct Python
raise site.  `pyValueError` is an uncaught `ValueError` from `int()`,
`indexError` an uncaught Python `IndexError`, `assertionError` a failed
`assert`. -/
inductive SpecErr where
  | unknownName (name : String) (col : Nat)
  | assertionError
  | unknownColumn (coltype col : Nat)
  | alreadyAssigned (role col : Nat)
  | alreadyMapped (col : Nat)
  | relationNoRef (col : Nat)
  | invalidSuffixTarget (col : Nat)
  | pyValueError
  | noTarget (col : Nat)
  | missingTarget (col : Nat)
  | indexError
  | eventTooFewRefs (col : Nat)
  deriving DecidableEq, Repr

/-- Character-list versions of the string primitives the embedding needs
(kernel-evaluable, unlike the position-based `String` library loops). -/
def strStartsWith (s p : String) : Bool := p.toList.isPrefixOf s.toList

def strDrop (s : String) (n : Nat) : String := String.mk (s.toList.drop n)

/-- Accumulating loop for `splitWs`. -/
def splitWsAux : List Char → List Char → List String
  | [], acc => if acc.isEmpty then [] else [String.mk acc.reverse]
  | c :: cs, acc =>
    if c.isWhitespace then
      if acc.isEmpty then splitWsAux cs []
      else String.mk acc.reverse :: splitWsAux cs []
    else splitWsAux cs (c :: acc)

/-- Python `str.split()` with no argument: split on whitespace runs, dropping
empty fields. -/
def splitWs (s : String) : List String := splitWsAux s.toList []

/-- Name before the first colon (`name[:name.index(':')]` when a colon is
present, the whole name otherwise). -/
def stripSuffix (name : String) : String :=
  String.mk (name.toList.takeWhile (fun c => c ≠ ':'))

/-- Text after the first colon (`header[header.index(':') + 1:]`). -/
def suffixAfter (s : String) : String :=
  String.mk ((s.toList.dropWhile (fun c => c ≠ ':')).drop 1)

def hasColon (s : String) : Bool := s.toList.contains ':'

def natOfDigits (cs : List Char) : Nat :=
  cs.foldl (fun n ch => n * 10 + (ch.toNat - 48)) 0

/-- Python `int(s)` on the strings reachable here: an optional minus sign
followed by decimal digits; anything else raises `ValueError` (`none`). -/
def pyInt? (s : String) : Option Int :=
  match s.toList with
  | [] => none
  | c :: cs =>
    if c = '-' then
      if cs ≠ [] && cs.all Char.isDigit then some (-(Int.ofNat (natOfDigits cs)))
      else none
    else if (c :: cs).all Char.isDigit then some (Int.ofNat (natOfDigits (c :: cs)))
    else none

/-- Python list indexing `l[i]` on a `List Nat`, including the negative-index
wrap-around; an out-of-range index is an `IndexError`. -/
def pyGetNat (l : List Nat) (i : Int) : Except SpecErr Nat :=
  if 0 ≤ i then
    match l.get? i.toNat with
    | some v => .ok v
    | none => .error .indexError
  else
    let k := (-i).toNat
    if k ≤ l.length then
      match l.get? (l.length - k) with
      | some v => .ok v
      | none => .error .indexError
    else .error .indexError

/-- Loop of `parse_colspec`, tracking the 0-based column index for the error
message. -/
def parseColspecAux : Nat → List String → Except SpecErr (List Nat)
  | _, [] => .ok []
  | idx, n :: rest =>
    match NAMES.lookup (stripSuffix n) with
    | none => .error (.unknownName n idx)
    | some v =>
      match parseColspecAux (idx + 1) rest with
      | .error e => .error e
      | .ok vs => .ok (v :: vs)

/-- Conversion of `parse_colspec` (colspec.py lines 262-297): split the
header, strip any `:N` suffix, and look each name up in `NAMES`. -/
def parseColspec (header : String) : Except SpecErr (List Nat) :=
  parseColspecAux 0 (splitWs header)

/-- Scan loop of `__set_target` (colspec.py lines 595-603):
`for target in range(col - 1, 0, -1)` — the scan visits indices `col-1` down
to `1` and never examines index `0`; exhaustion is the `for`-`else` raise. -/
def setTargetScanAux (roles targets : List Nat) (srcCol : Nat) :
    Nat → Except SpecErr Nat
  | 0 => .error (.missingTarget srcCol)
  | t + 1 =>
    let r := roles.getD (t + 1) UNKNOWN
    if r ∈ targets then .ok (t + 1)
    else if r ∈ skippedColumns then setTargetScanAux roles targets srcCol t
    else .error (.noTarget srcCol)

/-- Conversion of `__set_target`: default nearest-left target resolution. -/
def setTargetScan (roles : List Nat) (col : Nat) (targets : List Nat) :
    Except SpecErr Nat :=
  setTargetScanAux roles targets col (col - 1)

/-- Suffix branch of `__set_target_from_header` (lines 575-586) after the
suffix has been parsed to the integer `n`: `target = n - 1`, then
`colspec[target]` (Python indexing, so `n = 0` wraps to the last column and
`n > width` is an `IndexError`), then the target's role must be in
`_PROPERTY_TARGET_COLUMNS`.  The *stored* value is `target` itself, which is
`-1` when `n = 0`. -/
def resolveSuffixTarget (roles : List Nat) (col : Nat) (n : Int) :
    Except SpecErr Int :=
  let target : Int := n - 1
  match pyGetNat roles target with
  | .error e => .error e
  | .ok r =>
    if r ∈ propertyTargetColumns then .ok target
    else .error (.invalidSuffixTarget col)

/-- Conversion of `__set_target_from_header` (lines 572-589). -/
def setTargetFromHeader (roles : List Nat) (headers : List String) (col : Nat) :
    Except SpecErr Int :=
  let header := headers.getD col ""
  if hasColon header then
    match pyInt? (suffixAfter header) with
    | none => .error .pyValueError
    | some n => resolveSuffixTarget roles col n
  else (setTargetScan roles col entityColumns).map Int.ofNat

/-- Mutable state of `ColumnSpecification.__init__` during the column loop;
the events collection holds the pending columns (`setdefault(col, None)`),
resolved afterwards by `__init_events`. -/
structure BuildState where
  token : Option Nat := none
  globalEnum : Option Nat := none
  localEnum : Option Nat := none
  posTag : Option Nat := none
  segmentIds : List Nat := []
  entities : List Nat := []
  eventsPending : List Nat := []
  relations : List (Nat × Int) := []
  globalRefs : List (Nat × Int) := []
  localRefs : List (Nat × Int) := []
  normalizations : List (Nat × Int) := []
  attributes : List (Nat × Int) := []
  deriving DecidableEq, Repr

/-- Conversion of `_set_column`: a single-column slot may be set only once. -/
def setSingle (old : Option Nat) (role col : Nat) :
    Except SpecErr (Option Nat) :=
  match old with
  | some k => .error (.alreadyAssigned role k)
  | none => .ok (some col)

/-- Conversion of `__ensure_undefined`. -/
def ensureUndefined (m : List (Nat × Int)) (col : Nat) : Except SpecErr Unit :=
  if (m.lookup col).isSome then .error (.alreadyMapped col) else .ok ()

/-- Conversion of `_add_reference` and `_add_relation`-style map updates:
check the column is unmapped, resolve the target, append the binding. -/
def addTargeted (m : List (Nat × Int)) (col : Nat)
    (target : Except SpecErr Int) : Except SpecErr (List (Nat × Int)) :=
  match ensureUndefined m col with
  | .error e => .error e
  | .ok _ =>
    match target with
    | .error e => .error e
    | .ok t => .ok (m ++ [(col, t)])

/-- Dispatch of the `initialize[coltype](idx)` table in `__init__`
(colspec.py lines 317-352), one branch per column role. -/
def dispatchColumn (roles : List Nat) (headers : List String)
    (st : BuildState) (col coltype : Nat) : Except SpecErr BuildState :=
  if coltype = TOKEN then
    match setSingle st.token TOKEN col with
    | .error e => .error e
    | .ok t => .ok { st with token := t }
  else if coltype = GLOBAL_ENUM then
    match setSingle st.globalEnum GLOBAL_ENUM col with
    | .error e => .error e
    | .ok t => .ok { st with globalEnum := t }
  else if coltype = LOCAL_ENUM then
    match setSingle st.localEnum LOCAL_ENUM col with
    | .error e => .error e
    | .ok t => .ok { st with localEnum := t }
  else if coltype = POS_TAG then
    match setSingle st.posTag POS_TAG col with
    | .error e => .error e
    | .ok t => .ok { st with posTag := t }
  else if coltype = SEGMENT_ID then
    .ok { st with segmentIds := st.segmentIds ++ [col] }
  else if coltype = ENTITY then
    .ok { st with entities := st.entities ++ [col] }
  else if coltype = EVENT then
    .ok { st with eventsPending :=
      if st.eventsPending.contains col then st.eventsPending
      else st.eventsPending ++ [col] }
  else if coltype = RELATION then
    match pyGetNat roles ((col : Int) - 1) with
    | .error e => .error e
    | .ok prev =>
      if prev = LOCAL_REF ∨ prev = GLOBAL_REF then
        match addTargeted st.relations col (setTargetFromHeader roles headers col) with
        | .error e => .error e
        | .ok m => .ok { st with relations := m }
      else .error (.relationNoRef col)
  else if coltype = GLOBAL_REF then
    match addTargeted st.globalRefs col (setTargetFromHeader roles headers col) with
    | .error e => .error e
    | .ok m => .ok { st with globalRefs := m }
  else if coltype = LOCAL_REF then
    match addTargeted st.localRefs col (setTargetFromHeader roles headers col) with
    | .error e => .error e
    | .ok m => .ok { st with localRefs := m }
  else if coltype = NORMALIZATION then
    match addTargeted st.normalizations col
        ((setTargetScan roles col propertyTargetColumns).map Int.ofNat) with
    | .error e => .error e
    | .ok m => .ok { st with normalizations := m }
  else if coltype = ATTRIBUTE then
    match addTargeted st.attributes col
        ((setTargetScan roles col propertyTargetColumns).map Int.ofNat) with
    | .error e => .error e
    | .ok m => .ok { st with attributes := m }
  else if coltype = UNKNOWN then .ok st
  else .error (.unknownColumn coltype col)

/-- Left-to-right column loop of `__init__`, processing `roles.drop k`
starting at column index `k`. -/
def buildFrom (roles : List Nat) (headers : List String) :
    Nat → List Nat → BuildState → Except SpecErr BuildState
  | _, [], st => .ok st
  | k, r :: rest, st =>
    match dispatchColumn roles headers st k r with
    | .error e => .error e
    | .ok st2 => buildFrom roles headers (k + 1) rest st2

/-- Conversion of `__get_references_before` (lines 424-433): walk left from
`col - 1` over the contiguous run of reference columns, never reaching
index 0 (`range(col - 1, 0, -1)`); yields descending indices. -/
def referencesBeforeAux (roles : List Nat) : Nat → List Nat
  | 0 => []
  | t + 1 =>
    if roles.getD (t + 1) UNKNOWN = LOCAL_REF ∨
        roles.getD (t + 1) UNKNOWN = GLOBAL_REF then
      (t + 1) :: referencesBeforeAux roles t
    else []

def referencesBefore (roles : List Nat) (col : Nat) : List Nat :=
  referencesBeforeAux roles (col - 1)

/-- Conversion of `__init_events` (lines 356-366), looping over the pending
event columns in registration order: the reversed run gives ascending
reference columns; `ref_cols[0]` on an empty run is a Python `IndexError`,
and fewer than two references raise `ValueError`. -/
def initEvents (roles : List Nat) :
    List Nat → Except SpecErr (List (Nat × (Nat × List Nat)))
  | [] => .ok []
  | col :: rest =>
    match (referencesBefore roles col).reverse with
    | [] => .error .indexError
    | [_] => .error (.eventTooFewRefs col)
    | t :: more =>
      match initEvents roles rest with
      | .error e => .error e
      | .ok evs => .ok ((col, (t, more)) :: evs)

/-- Resolved `ColumnSpecification` instance state. -/
structure Colspec where
  width : Nat
  token : Option Nat
  globalEnum : Option Nat
  localEnum : Option Nat
  posTag : Option Nat
  segmentIds : List Nat
  entities : List Nat
  events : List (Nat × (Nat × List Nat))
  relations : List (Nat × Int)
  globalRefs : List (Nat × Int)
  localRefs : List (Nat × Int)
  normalizations : List (Nat × Int)
  attributes : List (Nat × Int)
  deriving DecidableEq, Repr

/-- Conversion of `ColumnSpecification.__init__` plus `__init_events`.  The
two leading `assert` statements become `assertionError`. -/
def mkColspec (roles : List Nat) (headers : List String) :
    Except SpecErr Colspec :=
  if roles.length ≤ 1 then .error .assertionError
  else if roles.length ≠ headers.length then .error .assertionError
  else
    match buildFrom roles headers 0 roles {} with
    | .error e => .error e
    | .ok st =>
      match initEvents roles st.eventsPending with
      | .error e => .error e
      | .ok evs =>
        .ok ⟨roles.length, st.token, st.globalEnum, st.localEnum, st.posTag,
             st.segmentIds, st.entities, evs, st.relations, st.globalRefs,
             st.localRefs, st.normalizations, st.attributes⟩

/-- Conversion of `ColumnSpecification.from_string`. -/
def fromString (header : String) : Except SpecErr Colspec :=
  match parseColspec header with
  | .error e => .error e
  | .ok roles => mkColspec roles (splitWs header)

/-- Conversion of `ColumnSpecification.to_string` (integer list to header). -/
def rolesToString (roles : List Nat) : String :=
  " ".intercalate (roles.map (fun c => (INTEGERS.lookup c).getD "_TYPE_"))

/-- Conversion of `ColumnSpecification.from_integers`. -/
def fromIntegers (roles : List Nat) : Except SpecErr Colspec :=
  mkColspec roles (splitWs (rolesToString roles))

/-- Conversion of `get_type` (lines 395-422), with the source's membership
test order. -/
def getType (c : Colspec) (col : Nat) : Option Nat :=
  if c.token = some col then some TOKEN
  else if c.globalEnum = some col then some GLOBAL_ENUM
  else if c.localEnum = some col then some LOCAL_ENUM
  else if c.posTag = some col then some POS_TAG
  else if col ∈ c.segmentIds then some SEGMENT_ID
  else if col ∈ c.entities then some ENTITY
  else if (c.events.lookup col).isSome then some EVENT
  else if (c.relations.lookup col).isSome then some RELATION
  else if (c.normalizations.lookup col).isSome then some NORMALIZATION
  else if (c.attributes.lookup col).isSome then some ATTRIBUTE
  else if (c.globalRefs.lookup col).isSome then some GLOBAL_REF
  else if (c.localRefs.lookup col).isSome then some LOCAL_REF
  else none

/-- Loop of `__str__` (lines 381-393): collect role names from column 0 while
`get_type` resolves and the column index is below the width. -/
def strListAux (c : Colspec) : Nat → Nat → List String
  | _, 0 => []
  | col, fuel + 1 =>
    match getType c col with
    | none => []
    | some t => nameOfRole t :: strListAux c (col + 1) fuel

/-- Conversion of `ColumnSpecification.__str__`. -/
def strOfColspec (c : Colspec) : String :=
  " ".intercalate (strListAux c 0 c.width)

/-- Registration invariant of the construction loop, for the single-column
slots: the slot holds exactly the unique already-processed column of that
role. -/
def singleInv (f : Option Nat) (role : Nat) (roles : List Nat) (k : Nat) :
    Prop :=
  ∀ i, f = some i ↔ (i < k ∧ roles.get? i = some role)

/-- Registration invariant for the set-like collections. -/
def listInv (l : List Nat) (role : Nat) (roles : List Nat) (k : Nat) : Prop :=
  ∀ i, i ∈ l ↔ (i < k ∧ roles.get? i = some role)

/-- Registration invariant for the target maps (keys only). -/
def mapInv {α : Type} (m : List (Nat × α)) (role : Nat) (roles : List Nat)
    (k : Nat) : Prop :=
  ∀ i, (m.lookup i).isSome = true ↔ (i < k ∧ roles.get? i = some role)

/-- Full invariant after the first `k` columns have been dispatched. -/
def BuildInv (roles : List Nat) (k : Nat) (st : BuildState) : Prop :=
  singleInv st.token TOKEN roles k ∧
  singleInv st.globalEnum GLOBAL_ENUM roles k ∧
  singleInv st.localEnum LOCAL_ENUM roles k ∧
  singleInv st.posTag POS_TAG roles k ∧
  listInv st.segmentIds SEGMENT_ID roles k ∧
  listInv st.entities ENTITY roles k ∧
  listInv st.eventsPending EVENT roles k ∧
  mapInv st.relations RELATION roles k ∧
  mapInv st.globalRefs GLOBAL_REF roles k ∧
  mapInv st.localRefs LOCAL_REF roles k ∧
  mapInv st.normalizations NORMALIZATION roles k ∧
  mapInv st.attributes ATTRIBUTE roles k

/-- Roles the construction dispatch accepts (everything except `_ANNOTATION`
and junk values, which raise). -/
def knownRole (r : Nat) : Prop :=
  r = TOKEN ∨ r = GLOBAL_ENUM ∨ r = LOCAL_ENUM ∨ r = POS_TAG ∨
  r = SEGMENT_ID ∨ r = ENTITY ∨ r = EVENT ∨ r = RELATION ∨
  r = GLOBAL_REF ∨ r = LOCAL_REF ∨ r = NORMALIZATION ∨ r = ATTRIBUTE ∨
  r = UNKNOWN

/-! ### Column guesser (reader.py `_make_guess` and class `Guess`) -/

/-- Uncaught Python exceptions the guesser can raise: `ValueError` from
`max()` on an empty set (line 402 when every value is `0`), and
`AttributeError` from the dead `Spec.VALUES` access (line 474) or from
`guess.guess` when the reader yields no segment at all. -/
inductive GuessErr where
  | pyValueError
  | pyAttributeError
  deriving DecidableEq, Repr

/-- Python `str.isdigit()`: nonempty and all digits (ASCII model). -/
def pyStrIsDigit (s : String) : Bool :=
  s ≠ "" && s.toList.all Char.isDigit

/-- Values of one column over a segment (`row[column] for row in segment`). -/
def colVals (segment : List (List String)) (c : Nat) : List String :=
  segment.map (fun row => row.getD c "")

def allColDigits (segment : List (List String)) (c : Nat) : Bool :=
  (colVals segment c).all pyStrIsDigit

/-- Python `self.guess[i]` where `i` may be `column - 1 = -1` (wrap-around to
the last element); all reachable accesses are in range. -/
def pyRoleAt (g : List Nat) (i : Int) : Nat :=
  if 0 ≤ i then g.getD i.toNat UNKNOWN
  else g.getD (g.length - (-i).toNat) UNKNOWN

/-- Conversion of `_ensure_enum_columns` (reader.py lines 340-363). -/
def ensureEnumColumns (g : List Nat) (thisCol : Nat) : List Nat :=
  let enums := g.enum.filter (fun p => p.2 == LOCAL_ENUM || p.2 == GLOBAL_ENUM)
  let final := enums.foldl (fun (st : List Nat × Bool × Nat) p =>
      if p.1 = thisCol then st
      else if st.2.1 then (st.1.set p.1 UNKNOWN, st.2.1, st.2.2)
      else if p.1 < thisCol then (st.1.set p.1 GLOBAL_ENUM, true, st.2.2)
      else (st.1.set p.1 LOCAL_ENUM, true, GLOBAL_ENUM))
    (g, false, LOCAL_ENUM)
  final.1.set thisCol final.2.2

/-- Conversion of `_guess_unique` (lines 371-377). -/
def guessUnique (g : List Nat) (col coltype : Nat) : List Nat :=
  ((List.range col).foldl
    (fun acc i => if acc.getD i UNKNOWN = coltype then acc.set i UNKNOWN else acc)
    g).set col coltype

/-- Conversion of `_guess_id_or_token` (lines 322-338); the second component
is the `__token_seen` flag. -/
def guessIdOrToken (segment : List (List String)) (g : List Nat)
    (tokenSeen : Bool) (col : Nat) : List Nat × Bool :=
  let vals := colVals segment col
  let v0 := (segment.headD []).getD col ""
  if vals.all (fun v => v == v0) && segment.length > 1 then
    (g.set col SEGMENT_ID, tokenSeen)
  else if vals.all pyStrIsDigit then
    (if col = 0 then g.set col LOCAL_ENUM else ensureEnumColumns g col, tokenSeen)
  else (guessUnique g col TOKEN, true)

/-- Loop over the already-identified LOCAL_ENUM columns inside
`_guess_local_or_global_reference` (lines 405-417): a non-integer enum column
is reset to UNKNOWN (the `except ValueError` branch); a subset match assigns
LOCAL_REF and returns; loop exhaustion falls back to LOCAL_REF. -/
def localEnumSubsetLoop (segment : List (List String)) (col : Nat)
    (refs : List Nat) : List (Nat × Nat) → List Nat → List Nat
  | [], g => g.set col LOCAL_REF
  | p :: rest, g =>
    match (colVals segment p.1).mapM pyInt? with
    | none => localEnumSubsetLoop segment col refs rest (g.set p.1 UNKNOWN)
    | some enumInts =>
      if refs.all (fun r => enumInts.contains (Int.ofNat r)) then g.set col LOCAL_REF
      else localEnumSubsetLoop segment col refs rest g

/-- Conversion of `_guess_local_or_global_reference` (lines 395-417); the
column was verified all-digits by every caller, so the reference values are
naturals. -/
def guessLocalOrGlobalReference (segment : List (List String)) (g : List Nat)
    (col : Nat) : Except GuessErr (List Nat) :=
  let refs := ((colVals segment col).filter (fun v => v != "0")).map
    (fun v => natOfDigits v.toList)
  if refs.isEmpty then .error .pyValueError
  else if refs.foldl max 0 > segment.length then .ok (g.set col GLOBAL_REF)
  else
    let enums := g.enum.filter (fun p => p.2 == LOCAL_ENUM)
    .ok (localEnumSubsetLoop segment col refs enums g)

/-- Conversion of `_guess_annotation_or_reference` (lines 379-386). -/
def guessAnnotationOrReference (segment : List (List String)) (g : List Nat)
    (col : Nat) : Except GuessErr (List Nat) :=
  if allColDigits segment col then guessLocalOrGlobalReference segment g col
  else .ok (g.set col ANNOT)

/-- Conversion of `_ensure_reference` (lines 388-393). -/
def ensureReference (segment : List (List String)) (g : List Nat)
    (col : Nat) : Except GuessErr (List Nat) :=
  if allColDigits segment col then guessLocalOrGlobalReference segment g col
  else .ok (g.set col UNKNOWN)

/-- Conversion of `_analyze_column` (lines 312-320). -/
def analyzeColumn (segment : List (List String)) (st : List Nat × Bool)
    (col : Nat) : Except GuessErr (List Nat × Bool) :=
  let cur := st.1.getD col UNKNOWN
  if cur = UNKNOWN then
    if st.2 then do
      let g2 ← guessAnnotationOrReference segment st.1 col
      .ok (g2, st.2)
    else .ok (guessIdOrToken segment st.1 st.2 col)
  else if cur = LOCAL_REF ∨ cur = GLOBAL_REF then do
    let g2 ← ensureReference segment st.1 col
    .ok (g2, st.2)
  else .ok st

/-- Conversion of `_analyze` (lines 306-310): reset `__token_seen`, then walk
all columns. -/
def analyzeSegment (columns : Nat) (segment : List (List String))
    (g : List Nat) : Except GuessErr (List Nat) := do
  let st ← (List.range columns).foldlM (analyzeColumn segment) (g, false)
  .ok st.1

/-- Conversion of `_has_a_tag_to_the_left` (lines 429-434):
`range(column - 1, 0, -1)` never examines column 0. -/
def hasTagToTheLeft (g : List Nat) (col : Nat) : Bool :=
  (List.range' 1 (col - 1)).any
    (fun i => g.getD i UNKNOWN == POS_TAG || g.getD i UNKNOWN == ENTITY)

/-- Core of the regex `^(?:\S+:\S+|NULL)$` on a non-`NULL` value: no
whitespace, with a colon that has at least one character on each side. -/
def normMatchCore (v : String) : Bool :=
  let cs := v.toList
  cs.all (fun ch => !ch.isWhitespace) &&
  (List.range cs.length).any
    (fun i => cs.getD i ' ' == ':' && decide (1 ≤ i) && decide (i + 2 ≤ cs.length))

def normMatch (v : String) : Bool := v == "NULL" || normMatchCore v

/-- Matches `val.startswith(pre) for pre in ('B-', 'E-', 'I-')`. -/
def hasBioeMarker (v : String) : Bool :=
  strStartsWith v "B-" || strStartsWith v "E-" || strStartsWith v "I-"

/-- Conversion of `_guess_tag_or_property` (lines 436-456). -/
def guessTagOrProperty (segment : List (List String)) (g : List Nat)
    (col : Nat) : List Nat :=
  let vals := colVals segment col
  let tagged := hasTagToTheLeft g col
  if tagged && ((vals.filter (fun v => v != "NULL")).all normMatch) then
    g.set col NORMALIZATION
  else if vals.all (fun v => hasBioeMarker v || v == "O") then g.set col ENTITY
  else if tagged then g.set col ATTRIBUTE
  else if pyRoleAt g ((col : Int) - 1) == TOKEN then g.set col POS_TAG
  else g.set col UNKNOWN

/-- Loop of `_guess_event_or_relation` (lines 458-479) over the columns right
of `col`; the unreachable `Spec.VALUES` access is an `AttributeError`. -/
def guessEventOrRelationLoop (col : Nat) (g : List Nat) :
    List Nat → Except GuessErr (List Nat)
  | [] => .ok g
  | e :: rest =>
    let ct := g.getD e UNKNOWN
    if ct = LOCAL_REF ∨ ct = GLOBAL_REF then guessEventOrRelationLoop col g rest
    else if ct = RELATION ∨ ct = EVENT ∨ ct = UNKNOWN then .ok g
    else if ct = ANNOT then
      .ok (g.set e (if e - col > 1 then EVENT else RELATION))
    else .error .pyAttributeError

def guessEventOrRelation (columns : Nat) (g : List Nat) (col : Nat) :
    Except GuessErr (List Nat) :=
  guessEventOrRelationLoop col g (List.range' (col + 1) (columns - (col + 1)))

/-- Conversion of `_assign_annotation_types` (lines 419-427); the loop reads
the guess list as mutated by earlier iterations. -/
def assignAnnotationTypes (columns : Nat) (segment : List (List String))
    (g : List Nat) : Except GuessErr (List Nat) :=
  (List.range columns).foldlM (fun g col =>
    let cur := g.getD col UNKNOWN
    if cur = ANNOT then
      let prev := pyRoleAt g ((col : Int) - 1)
      if prev ≠ UNKNOWN ∧ prev ≠ GLOBAL_REF ∧ prev ≠ LOCAL_REF then
        .ok (guessTagOrProperty segment g col)
      else .ok g
    else if cur = LOCAL_REF ∨ cur = GLOBAL_REF then guessEventOrRelation columns g col
    else .ok g) g

/-- One guesser round: `Guess.__init__` and `Guess.update` both run
`_analyze` followed by `_assign_annotation_types`. -/
def guessRound (columns : Nat) (segment : List (List String)) (g : List Nat) :
    Except GuessErr (List Nat) := do
  let g1 ← analyzeSegment columns segment g
  assignAnnotationTypes columns segment g1

/-- Conversion of `Guess.complete`. -/
def guessComplete (g : List Nat) : Bool := g.all (fun x => x != UNKNOWN)

/-- Main loop of `_make_guess` (lines 266-283): after processing segment
`idx` the loop stops when `idx > 4` or a confirmation round was already
pending; completing the guess schedules one confirmation round. -/
def makeGuessLoop (columns : Nat) :
    List (List (List String)) → Nat → List Nat → Bool →
    Except GuessErr (List Nat)
  | [], _, g, _ => .ok g
  | seg :: rest, idx, g, lastRound => do
    let g2 ← guessRound columns seg g
    if idx > 4 ∨ lastRound then .ok g2
    else makeGuessLoop columns rest (idx + 1) g2 (guessComplete g2)

/-- Header detection inside `_make_guess` (lines 269-272): a single-row first
segment all of whose fields (before any `:N` suffix) are known role names. -/
def isColspecHeaderRow (row : List String) : Bool :=
  row.all (fun n => (NAMES.lookup (stripSuffix n)).isSome)

/-- Result of `_make_guess`: either a `ColumnSpecification` built from a
detected header row or the guessed role list. -/
inductive GuessResult where
  | header (spec : Except SpecErr Colspec)
  | guessed (roles : List Nat)
  deriving Repr

/-- Conversion of `_make_guess`.  An empty segment stream leaves `guess` as
`None` and `guess.guess` raises `AttributeError`. -/
def makeGuess (segments : List (List (List String))) :
    Except GuessErr GuessResult :=
  match segments with
  | [] => .error .pyAttributeError
  | seg0 :: _ =>
    if seg0.length == 1 && isColspecHeaderRow (seg0.headD []) then
      .ok (.header (fromString (" ".intercalate (seg0.headD []))))
    else
      (makeGuessLoop ((seg0.headD []).length) segments 0
        (List.replicate ((seg0.headD []).length) UNKNOWN) false).map .guessed

/-- First segment of the canonical synthetic example of C3, shaped
SEGMENT_ID GLOBAL_ENUM LOCAL_ENUM TOKEN POS_TAG ENTITY NORMALIZATION
LOCAL_REF RELATION GLOBAL_REF LOCAL_REF EVENT ENTITY ATTRIBUTE. -/
def canonicalSegment1 : List (List String) :=
  [["seg1", "1", "1", "tok1", "pos1", "B-tag1", "ns:id1", "2", "rel1",
    "0", "0", "null", "O", "att1"],
   ["seg1", "2", "2", "tok2", "pos2", "I-tag2", "ns:id2", "0", "null",
    "2", "1", "ent1", "E-tag", "att2"]]

/-- Second segment of the canonical synthetic example (its global reference
value 3 exceeds the segment length, which settles the GLOBAL_REF column). -/
def canonicalSegment2 : List (List String) :=
  [["seg2", "3", "1", "tok3", "pos3", "B-tag3", "ns:id3", "0", "null",
    "3", "1", "ent2", "I-tag", "att3"],
   ["seg2", "4", "2", "tok4", "pos4", "I-tag4", "ns:id4", "1", "rel2",
    "0", "0", "null", "E-tag", "att4"]]

/-- Canonical role sequence of C3. -/
def canonicalRoles : List Nat :=
  [SEGMENT_ID, GLOBAL_ENUM, LOCAL_ENUM, TOKEN, POS_TAG, ENTITY,
   NORMALIZATION, LOCAL_REF, RELATION, GLOBAL_REF, LOCAL_REF, EVENT,
   ENTITY, ATTRIBUTE]

/-! ### Converter: BIO/BIOE entity extraction (`_parse_bioe`, `_make_entity`,
and the error handling of `convert`) -/

/-- Python exceptions that can escape the per-segment conversion:
`convert` (converter.py line 124) catches only `ValueError` and
`DataFormatError`; a failed `assert` is an `AssertionError`. -/
inductive ConvErr where
  | assertionError
  | valueError (msg : String)
  | dataFormatError (msg : String)
  deriving DecidableEq, Repr

/-- Regex `^[\w-]+$` of `A_VALID_NAME` (ASCII model of `\w`). -/
def validBratName (s : String) : Bool :=
  s ≠ "" && s.toList.all (fun ch => ch.isAlphanum || ch = '_' || ch = '-')

/-- Conversion of `_validate_name` (lines 627-634): remap through the name
dictionary, then validate; failure raises `DataFormatError`. -/
def validateName (nameDict : List (String × String)) (name : String) :
    Except ConvErr String :=
  let name2 := (nameDict.lookup name).getD name
  if validBratName name2 then .ok name2
  else .error (.dataFormatError ("illegal name=" ++ name2))

/-- Conversion of `_make_entity` (lines 323-349), producing the emitted
entity as (name, start, end); `ok none` is the logged-and-skipped outcome
(the caught `IndexError` and `DataFormatError` branches), while the
`assert all(r[col][2:] == name for r in rows)` outside the `try` block
raises an (uncaught) `AssertionError` when a row's stripped tag name differs.
Identifier registration is modelled separately (see `runUids`). -/
def makeEntity (nameDict : List (String × String)) (posTag : Option Nat)
    (rows : List (List String)) (col start stop : Nat) :
    Except ConvErr (Option (String × Nat × Nat)) :=
  let off := if some col = posTag then 0 else 2
  match rows with
  | [] => .ok none
  | r0 :: _ =>
    if col < r0.length then
      match validateName nameDict (strDrop (r0.getD col "") off) with
      | .error _ => .ok none
      | .ok name =>
        if some col = posTag then .ok (some (name, start, stop))
        else if rows.all (fun r => strDrop (r.getD col "") 2 == name) then
          .ok (some (name, start, stop))
        else .error .assertionError
    else .ok none

/-- Loop body of `_parse_bioe` (lines 284-321), walking the segment rows with
the current row index, span start and open data rows, and collecting the
entities flushed along the way; returns the collected entities together with
the still-open rows and start offset. -/
def parseBioeAux (nameDict : List (String × String)) (posTag : Option Nat)
    (col : Nat) (offsets : List (Nat × Nat)) :
    List (List String) → Nat → Nat → List (List String) →
    Except ConvErr (List (String × Nat × Nat) × List (List String) × Nat)
  | [], _, start, dataRows => .ok ([], dataRows, start)
  | data :: rest, idx, start, dataRows =>
    let val := data.getD col ""
    if strStartsWith val "B-" then do
      let flushed ←
        if dataRows.isEmpty then pure []
        else do
          let e ← makeEntity nameDict posTag dataRows col start
            (offsets.getD (idx - 1) (0, 0)).2
          pure e.toList
      let res ← parseBioeAux nameDict posTag col offsets rest (idx + 1)
        (offsets.getD idx (0, 0)).1 [data]
      .ok (flushed ++ res.1, res.2)
    else if strStartsWith val "E-" then
      if dataRows.isEmpty then do
        let e ← makeEntity nameDict posTag [data] col
          (offsets.getD idx (0, 0)).1 (offsets.getD idx (0, 0)).2
        let res ← parseBioeAux nameDict posTag col offsets rest (idx + 1) start []
        .ok (e.toList ++ res.1, res.2)
      else do
        let e ← makeEntity nameDict posTag (dataRows ++ [data]) col start
          (offsets.getD idx (0, 0)).2
        let res ← parseBioeAux nameDict posTag col offsets rest (idx + 1) start []
        .ok (e.toList ++ res.1, res.2)
    else if strStartsWith val "I-" then
      if dataRows.isEmpty then
        parseBioeAux nameDict posTag col offsets rest (idx + 1)
          (offsets.getD idx (0, 0)).1 [data]
      else
        parseBioeAux nameDict posTag col offsets rest (idx + 1) start
          (dataRows ++ [data])
    else if val == "O" then
      if dataRows.isEmpty then
        parseBioeAux nameDict posTag col offsets rest (idx + 1) start []
      else do
        let e ← makeEntity nameDict posTag dataRows col start
          (offsets.getD (idx - 1) (0, 0)).2
        let res ← parseBioeAux nameDict posTag col offsets rest (idx + 1) start []
        .ok (e.toList ++ res.1, res.2)
    else parseBioeAux nameDict posTag col offsets rest (idx + 1) start dataRows

def parseBioe (nameDict : List (String × String)) (posTag : Option Nat)
    (segment : List (List String)) (col : Nat) (offsets : List (Nat × Nat)) :
    Except ConvErr (List (String × Nat × Nat) × List (List String) × Nat) :=
  parseBioeAux nameDict posTag col offsets segment 0 0 []

/-- Conversion of `_process_entities` (lines 270-276): per ENTITY column run
`_parse_bioe` and flush any remaining open rows to the last offset end. -/
def processEntities (nameDict : List (String × String)) (posTag : Option Nat)
    (entityCols : List Nat) (segment : List (List String))
    (offsets : List (Nat × Nat)) :
    Except ConvErr (List (String × Nat × Nat)) :=
  entityCols.foldlM (fun acc col => do
    let res ← parseBioe nameDict posTag segment col offsets
    if res.2.1.isEmpty then pure (acc ++ res.1)
    else do
      let e ← makeEntity nameDict posTag res.2.1 col res.2.2
        (offsets.getD (offsets.length - 1) (0, 0)).2
      pure (acc ++ res.1 ++ e.toList)) []

/-- Outcome of `convert` (lines 119-128): success, failure caught by the
`except (ValueError, DataFormatError)` handler (which logs and returns
`False`), or an exception that propagates uncaught. -/
inductive ConvertOutcome where
  | success
  | failedCaught
  | uncaught (e : ConvErr)
  deriving DecidableEq, Repr

def handleConvert {α : Type} (r : Except ConvErr α) : ConvertOutcome :=
  match r with
  | .ok _ => .success
  | .error (.valueError _) => .failedCaught
  | .error (.dataFormatError _) => .failedCaught
  | .error .assertionError => .uncaught .assertionError

/-- Segment of the C10 counter-scenario: a `B-X` row whose span is closed by
an `E-Y` row carrying a different stripped name in the same ENTITY column. -/
def c10Segment : List (List String) := [["w1", "B-X"], ["w2", "E-Y"]]

/-! ### Converter: relation guard (converter.py `_make_relation`, line 381) -/

/-- Guard of `_make_relation`:
`if data[ref_col] and name and data[ref_col] != '0' and name != 'NULL':`.
Returns `true` when the relation is emitted (the body runs). -/
def relationEmitGuard (refVal nameVal : String) : Bool :=
  refVal ≠ "" && nameVal ≠ "" && refVal ≠ "0" && nameVal ≠ "NULL"

/-! ### Converter: event argument construction (converter.py `_make_event`) -/

/-- Line 415: `ref_ids = [(None if data[c] == '0' else
self._get_referenced_id(data, c)) for c in ref_cols]`.  The id returned by a
successful `_get_referenced_id` call is abstracted as `resolveRef c`. -/
def eventRefIds (data : List String) (refCols : List Nat)
    (resolveRef : Nat → String) : List (Option String) :=
  refCols.map (fun c => if data.getD c "" = "0" then none else some (resolveRef c))

/-- Lines 417-419: `references = dict(('Arg%d' % num, rid) for num, rid in
enumerate(ref_ids, 1) if rid is not None)`. -/
def eventReferences (refIds : List (Option String)) : List (String × String) :=
  ((List.range refIds.length).zip refIds).filterMap
    (fun p => p.2.map (fun rid => ("Arg" ++ toString (p.1 + 1), rid)))

/-! ### Converter: brat uid construction (`_register` and `_make_attribute`) -/

/-- Model of the Python value placed in the `uid` field of an emitted
annotation: `_register` builds the string `letter + str(next(counter))`,
while `_make_attribute` line 451 evaluates `'A', + next(self._attribute_counter)`,
which in Python is the *tuple* `('A', n)`, not a string. -/
inductive PyUid where
  | str (s : String)
  | pair (letter : String) (n : Nat)
  deriving DecidableEq, Repr

/-- Annotation kinds with their per-kind `itertools.count(1)` counters. -/
inductive AnnKind where
  | T | R | E | N | A
  deriving DecidableEq, Repr

def letterOf : AnnKind → String
  | .T => "T" | .R => "R" | .E => "E" | .N => "N" | .A => "A"

/-- Per-kind counters (`_reset_states` starts each `count(1)` at 1). -/
structure Counters where
  t : Nat := 0
  r : Nat := 0
  e : Nat := 0
  n : Nat := 0
  a : Nat := 0

def Counters.get (c : Counters) : AnnKind → Nat
  | .T => c.t | .R => c.r | .E => c.e | .N => c.n | .A => c.a

def Counters.bump (c : Counters) : AnnKind → Counters
  | .T => { c with t := c.t + 1 }
  | .R => { c with r := c.r + 1 }
  | .E => { c with e := c.e + 1 }
  | .N => { c with n := c.n + 1 }
  | .A => { c with a := c.a + 1 }

/-- One uid draw.  Kinds T, R, E and N go through `_register` (line 470:
`uid = letter + str(next(counter))`); kind A goes through `_make_attribute`
(line 451: `uid = 'A', + next(self._attribute_counter)`, a tuple). -/
def drawUid (c : Counters) (k : AnnKind) : PyUid × Counters :=
  let next := c.get k + 1
  let uid := match k with
    | .A => PyUid.pair "A" next
    | _ => PyUid.str (letterOf k ++ toString next)
  (uid, c.bump k)

/-- The sequence of uids produced by a run emitting the given kinds in order. -/
def runUids (ks : List AnnKind) : List PyUid :=
  (ks.foldl (fun (acc : List PyUid × Counters) k =>
    let (uid, c) := drawUid acc.2 k
    (acc.1 ++ [uid], c)) ([], {})).1

/-! ### Converter: two-pass conversion with global references
(converter.py `_convert_with_globals`, lines 177-205) -/

/-- Pass structure of `_convert_with_globals`: pass 1 appends each segment's
local map to `local_maps` in file order; then `local_maps = reversed(local_maps)`
and pass 2 draws `self._local_map = next(local_maps)` for each segment in file
order.  `pass1` abstracts `_convert_tokens_and_entities` returning the
segment's local map.  The result lists, in order, which local map pass 2 uses
for each segment. -/
def convertWithGlobalsPairs {σ μ : Type} (pass1 : σ → μ) (segments : List σ) :
    List (σ × μ) :=
  let localMaps := segments.map pass1
  segments.zip localMaps.reverse

/-! ### Converter: offset reconstruction (converter.py `_yield_offsets`) -/

/-- Does `tok` occur in `text` at position `i`?  (Python `text[i:i+len(tok)] == tok`;
for nonempty `tok`, equality of the `take` forces `i + tok.length ≤ text.length`.) -/
def occursAt (text tok : List Char) (i : Nat) : Bool :=
  decide (((text.drop i).take tok.length) = tok)

/-- Search loop of Python `text.index(token, start)`, with the number of
remaining candidate positions made explicit for structural recursion. -/
def findFromAux (text tok : List Char) : Nat → Nat → Option Nat
  | 0, start => if occursAt text tok start then some start else none
  | fuel + 1, start =>
    if occursAt text tok start then some start
    else findFromAux text tok fuel (start + 1)

/-- Python `text.index(token, start)`: the least `u ≥ start` at which `token`
occurs, `none` when there is none (`str.index` raises `ValueError`).
Candidate positions run from `start` to `text.length`; beyond
`text.length - tok.length` a nonempty `tok` cannot occur. -/
def findFrom (text tok : List Char) (start : Nat) : Option Nat :=
  findFromAux text tok (text.length - start) start

/-- Loop body of `_yield_offsets` (lines 234-258): for each row token, locate
its next occurrence from the running offset, yield `(start, start + length)`
and continue from the end of the span.  `none` models the `ValueError`
raised when a token is not found. -/
def yieldOffsets (text : List Char) (toks : List (List Char)) (start : Nat) :
    Option (List (Nat × Nat)) :=
  match toks with
  | [] => some []
  | tok :: rest =>
    match findFrom text tok start with
    | none => none
    | some u =>
      (yieldOffsets text rest (u + tok.length)).map (fun spans => (u, u + tok.length) :: spans)

/-- Chained spans: every span starts at or after `lo`, and each span's end
bounds the start of the next. -/
def Chained : Nat → List (Nat × Nat) → Prop
  | _, [] => True
  | lo, sp :: rest => lo ≤ sp.1 ∧ Chained sp.2 rest

/-- Helper for the proofs about `eventReferences`: the same construction with
the enumeration started at an arbitrary offset. -/
def eventReferencesFrom (off : Nat) (refIds : List (Option String)) :
    List (String × String) :=
  ((List.range' off refIds.length).zip refIds).filterMap
    (fun p => p.2.map (fun rid => ("Arg" ++ toString (p.1 + 1), rid)))

/-- Character 39, the ASCII apostrophe. -/
def apos : Char := Char.ofNat 39

/-- Raw text of the offset-reconstruction example:
`This is Florian's weird test.` -/
def exampleText : List Char :=
  "This is Florian".toList ++ [apos] ++ "s weird test.".toList

/-- Token sequence of the offset-reconstruction example. -/
def exampleTokens : List (List Char) :=
  ["This".toList, "is".toList,
   "Florian".toList ++ [apos] ++ "s".toList,
   "weird".toList, "test".toList, ".".toList]

/-- Spans the converter assigns on the example. -/
def exampleSpans : List (Nat × Nat) :=
  [(0, 4), (5, 7), (8, 17), (18, 23), (24, 28), (28, 29)]

/-! ## Theorems -/

theorem findFromAux_sound (text tok : List Char) :
    ∀ fuel start u, findFromAux text tok fuel start = some u →
      start ≤ u ∧ occursAt text tok u = true := by
  intro fuel
  induction fuel with
  | zero =>
    intro start u h
    simp only [findFromAux] at h
    split at h
    · cases h; exact ⟨Nat.le_refl _, by assumption⟩
    · cases h
  | succ fuel ih =>
    intro start u h
    simp only [findFromAux] at h
    split at h
    · cases h; exact ⟨Nat.le_refl _, by assumption⟩
    · obtain ⟨hle, hocc⟩ := ih (start + 1) u h
      exact ⟨Nat.le_trans (Nat.le_succ start) hle, hocc⟩

theorem findFrom_sound (text tok : List Char) (start u : Nat)
    (h : findFrom text tok start = some u) :
    start ≤ u ∧ occursAt text tok u = true :=
  findFromAux_sound text tok _ start u h

/-- C2: for every segment whose tokens can all be located left to right
(that is, whenever `_yield_offsets` succeeds), the assigned spans are
`[u, u + len(token))`, the text sliced at each span equals that token
exactly, consecutive spans are chained (each next search starts at the
previous end), the spans are pairwise non-overlapping and monotonically
non-decreasing, and every span starts at or after the initial offset. -/
theorem c2_offsets_sound :
    ∀ (toks : List (List Char)) (text : List Char) (start : Nat)
      (spans : List (Nat × Nat)),
      yieldOffsets text toks start = some spans →
      List.Forall₂ (fun tok sp => sp.2 = sp.1 + tok.length ∧
          (text.drop sp.1).take tok.length = tok) toks spans
      ∧ Chained start spans
      ∧ List.Pairwise (fun a b => a.2 ≤ b.1) spans
      ∧ ∀ sp ∈ spans, start ≤ sp.1 := by
  intro toks
  induction toks with
  | nil =>
    intro text start spans h
    simp only [yieldOffsets] at h
    cases h
    exact ⟨List.Forall₂.nil, trivial, List.Pairwise.nil, by intro sp hsp; cases hsp⟩
  | cons tok rest ih =>
    intro text start spans h
    simp only [yieldOffsets] at h
    cases hf : findFrom text tok start with
    | none => rw [hf] at h; cases h
    | some u =>
      rw [hf] at h
      dsimp only at h
      cases hr : yieldOffsets text rest (u + tok.length) with
      | none => rw [hr] at h; cases h
      | some spans' =>
        rw [hr] at h
        simp only [Option.map_some'] at h
        cases h
        obtain ⟨hle, hocc⟩ := findFrom_sound text tok start u hf
        obtain ⟨hF, hC, hP, hB⟩ := ih text (u + tok.length) spans' hr
        refine ⟨?_, ⟨hle, hC⟩, ?_, ?_⟩
        · exact List.Forall₂.cons ⟨rfl, of_decide_eq_true hocc⟩ hF
        · exact List.Pairwise.cons (fun b hb => hB b hb) hP
        · intro sp hsp
          rcases List.mem_cons.mp hsp with hsp | hsp
          · rw [hsp]; exact hle
          · exact Nat.le_trans (Nat.le_trans hle (Nat.le_add_right u tok.length))
              (hB sp hsp)

/-- Witness for C2 at the documented example: raw text
`This is Florian's weird test.` with the six tokens of the claim. -/
theorem c2_offsets_sound_witness :
    List.Forall₂ (fun tok sp => sp.2 = sp.1 + tok.length ∧
        (exampleText.drop sp.1).take tok.length = tok) exampleTokens exampleSpans
    ∧ Chained 0 exampleSpans
    ∧ List.Pairwise (fun a b => a.2 ≤ b.1) exampleSpans
    ∧ ∀ sp ∈ exampleSpans, 0 ≤ sp.1 :=
  c2_offsets_sound exampleTokens exampleText 0 exampleSpans (by decide)

/-- C1 (code evaluated at the failing input): with two segments `[0, 1]` and
the per-segment local map abstracted as the segment itself, pass 2 of
`_convert_with_globals` pairs segment 0 with segment 1's local map and
segment 1 with segment 0's local map — not each segment with its own map as
the specification states. -/
theorem c1_pass2_uses_reversed_local_maps :
    convertWithGlobalsPairs (fun s => s) [0, 1] = [(0, 1), (1, 0)]
    ∧ convertWithGlobalsPairs (fun s => s) [0, 1] ≠ [(0, 0), (1, 1)] := by
  constructor
  · rfl
  · decide

theorem eventReferences_eq_from (refIds : List (Option String)) :
    eventReferences refIds = eventReferencesFrom 0 refIds := by
  simp [eventReferences, eventReferencesFrom, List.range_eq_range']

theorem eventReferencesFrom_cons (off : Nat) (a : Option String)
    (rest : List (Option String)) :
    eventReferencesFrom off (a :: rest) =
      (match a with
       | none => []
       | some rid => [("Arg" ++ toString (off + 1), rid)]) ++
      eventReferencesFrom (off + 1) rest := by
  cases a <;>
    simp [eventReferencesFrom, List.range'_succ, List.filterMap_cons]

theorem eventReferencesFrom_mem :
    ∀ (l : List (Option String)) (off : Nat) (q : String × String),
      q ∈ eventReferencesFrom off l ↔
        ∃ i : Nat, l.get? i = some (some q.2) ∧
          q.1 = "Arg" ++ toString (off + i + 1) := by
  intro l
  induction l with
  | nil =>
    intro off q
    simp [eventReferencesFrom]
  | cons a rest ih =>
    intro off q
    obtain ⟨q1, q2⟩ := q
    have ihq := ih (off + 1) (q1, q2)
    dsimp only at ihq ⊢
    rw [eventReferencesFrom_cons]
    cases a with
    | none =>
      simp only [List.nil_append]
      constructor
      · intro h
        obtain ⟨i, hi, hq⟩ := ihq.mp h
        refine ⟨i + 1, by simpa using hi, ?_⟩
        rw [hq, show off + 1 + i + 1 = off + (i + 1) + 1 from by omega]
      · rintro ⟨i, hi, hq⟩
        cases i with
        | zero => simp at hi
        | succ i =>
          refine ihq.mpr ⟨i, by simpa using hi, ?_⟩
          rw [hq, show off + (i + 1) + 1 = off + 1 + i + 1 from by omega]
    | some rid =>
      simp only [List.singleton_append, List.mem_cons, Prod.mk.injEq]
      constructor
      · rintro (⟨h1, h2⟩ | h)
        · exact ⟨0, by simp [h2], by simpa using h1⟩
        · obtain ⟨i, hi, hq⟩ := ihq.mp h
          refine ⟨i + 1, by simpa using hi, ?_⟩
          rw [hq, show off + 1 + i + 1 = off + (i + 1) + 1 from by omega]
      · rintro ⟨i, hi, hq⟩
        cases i with
        | zero =>
          left
          simp only [List.get?_cons_zero, Option.some.injEq] at hi
          exact ⟨by simpa using hq, hi.symm⟩
        | succ i =>
          right
          refine ihq.mpr ⟨i, by simpa using hi, ?_⟩
          rw [hq, show off + (i + 1) + 1 = off + 1 + i + 1 from by omega]

theorem eventReferencesFrom_length :
    ∀ (l : List (Option String)) (off : Nat),
      (eventReferencesFrom off l).length = (l.filterMap id).length := by
  intro l
  induction l with
  | nil => intro off; simp [eventReferencesFrom]
  | cons a rest ih =>
    intro off
    rw [eventReferencesFrom_cons]
    cases a <;> simp [List.filterMap_cons, ih (off + 1)]

/-- C5 (amended): event arguments are the non-`0` reference columns in
left-to-right order, but each is named by its 1-based *position* among the
reference columns — `Arg(i+1)` for position `i` — so a skipped `0` argument
leaves a gap in the numbering rather than being closed up. -/
theorem c5_event_args_positional :
    ∀ refIds : List (Option String),
      (eventReferences refIds).length = (refIds.filterMap id).length
      ∧ (∀ (i : Nat) (rid : String), refIds.get? i = some (some rid) →
          ("Arg" ++ toString (i + 1), rid) ∈ eventReferences refIds)
      ∧ (∀ q ∈ eventReferences refIds, ∃ i : Nat,
          refIds.get? i = some (some q.2) ∧ q.1 = "Arg" ++ toString (i + 1)) := by
  intro refIds
  rw [eventReferences_eq_from]
  refine ⟨eventReferencesFrom_length refIds 0, ?_, ?_⟩
  · intro i rid h
    exact (eventReferencesFrom_mem refIds 0 _).mpr ⟨i, by simpa using h, by simp⟩
  · intro q hq
    obtain ⟨i, hi, hq1⟩ := (eventReferencesFrom_mem refIds 0 q).mp hq
    exact ⟨i, hi, by simpa using hq1⟩

/-- Witness for C5: a two-column event reference list whose first argument is
`0`; the surviving argument is positionally named `Arg2`. -/
theorem c5_event_args_positional_witness :
    ("Arg2", "T2") ∈ eventReferences [none, some "T2"] := by
  have h := (c5_event_args_positional [none, some "T2"]).2.1 1 "T2" rfl
  simpa using h

/-- C5 counterexample: with reference values `['0', non-zero]` the single
present argument is emitted as `Arg2`, not renumbered densely to `Arg1` as
the claim states. -/
theorem c5_event_args_counterexample :
    eventReferences [none, some "T2"] = [("Arg2", "T2")]
    ∧ eventReferences [none, some "T2"] ≠ [("Arg1", "T2")] := by
  constructor
  · decide
  · decide

/-- C6 (code evaluated at the failing input): `_register` produces string
uids `T1, T2, R1, …` for entities, relations, events and normalizations, but
`_make_attribute` line 451 evaluates `'A', + next(counter)`, producing the
Python *tuple* `('A', n)` instead of the string `An`. -/
theorem c6_attribute_uid_is_tuple :
    runUids [AnnKind.T, AnnKind.T, AnnKind.A, AnnKind.R, AnnKind.A] =
      [PyUid.str "T1", PyUid.str "T2", PyUid.pair "A" 1,
       PyUid.str "R1", PyUid.pair "A" 2]
    ∧ PyUid.pair "A" 1 ≠ PyUid.str "A1" := by
  constructor
  · decide
  · decide

/-- C9 counterexample: at reference field `NULL` and name field `rel` the
claimed skip condition (either field empty, `0` or `NULL`) holds, but the
code's guard emits the relation (the guard only tests the reference field
against empty and `0`, and the name field against empty and `NULL`). -/
theorem c9_relation_skip_counterexample :
    ¬ (relationEmitGuard "NULL" "rel" = false ↔
        ("NULL" = "" ∨ "NULL" = "0" ∨ "NULL" = "NULL" ∨
         "rel" = "" ∨ "rel" = "0" ∨ "rel" = "NULL")) := by
  decide

/-- C9 (amended): a relation row is skipped (guard fails) precisely when the
reference field is empty or `0`, or the name field is empty or `NULL` — a
reference field of `NULL` or a name field of `0` is not skipped. -/
theorem c9_relation_skip_characterization :
    ∀ refVal nameVal : String,
      relationEmitGuard refVal nameVal = false ↔
        (refVal = "" ∨ refVal = "0" ∨ nameVal = "" ∨ nameVal = "NULL") := by
  intro r n
  by_cases h1 : r = "" <;> by_cases h2 : n = "" <;>
    by_cases h3 : r = "0" <;> by_cases h4 : n = "NULL" <;>
      simp [relationEmitGuard, h1, h2, h3, h4]

/-- C3: on headerless canonical synthetic segments shaped
SEGMENT_ID GLOBAL_ENUM LOCAL_ENUM TOKEN POS_TAG ENTITY NORMALIZATION
LOCAL_REF RELATION GLOBAL_REF LOCAL_REF EVENT ENTITY ATTRIBUTE with
unambiguous values, the guesser terminates (one round plus the confirmation
round) and its final guess is exactly that role sequence.  The re-test of
reference columns in the confirmation round is load-bearing: round one can
only classify the GLOBAL_REF column as LOCAL_REF; segment two corrects it. -/
theorem c3_guesser_reproduces_canonical :
    makeGuess [canonicalSegment1, canonicalSegment2] =
      Except.ok (GuessResult.guessed canonicalRoles) := rfl

/-- C10: flushing the multi-row span `B-X`/`E-Y` (different stripped names in
the same ENTITY column) trips the `assert all(r[col][2:] == name ...)` in
`_make_entity`, and the resulting AssertionError is neither the
logged-and-skipped outcome nor caught by `convert`, whose handler only turns
`ValueError` and `DataFormatError` into a `False` return; a span with a
consistent name is emitted normally. -/
theorem c10_bioe_name_mismatch_uncaught :
    handleConvert (processEntities [] none [1] c10Segment [(0, 2), (3, 5)]) =
      ConvertOutcome.uncaught ConvErr.assertionError
    ∧ processEntities [] none [1] [["a", "B-X"], ["b", "I-X"], ["c", "E-X"]]
        [(0, 1), (2, 3), (4, 5)] = .ok [("X", 0, 5)]
    ∧ handleConvert (Except.error (ConvErr.valueError "e") : Except ConvErr Unit) =
      ConvertOutcome.failedCaught
    ∧ handleConvert (Except.error (ConvErr.dataFormatError "e") : Except ConvErr Unit) =
      ConvertOutcome.failedCaught :=
  ⟨rfl, rfl, rfl, rfl⟩

/-- Documented colspec header example (colspec.py module docstring line 30). -/
def docHeader : String :=
  "SEGMENT_ID TOKEN POS_TAG LOCAL_REF RELATION ENTITY LOCAL_REF:5 LOCAL_REF:9 EVENT"

/-- C4 counterexample: the documented example header is accepted, but
converting the specification back to a string drops the `:5` and `:9`
suffixes, so the round trip does not reproduce the header exactly. -/
theorem c4_roundtrip_counterexample :
    (fromString docHeader).map strOfColspec =
      .ok "SEGMENT_ID TOKEN POS_TAG LOCAL_REF RELATION ENTITY LOCAL_REF LOCAL_REF EVENT"
    ∧ "SEGMENT_ID TOKEN POS_TAG LOCAL_REF RELATION ENTITY LOCAL_REF LOCAL_REF EVENT"
      ≠ docHeader := by
  exact ⟨rfl, by decide⟩

/-- C7 counterexample: with roles `[POS_TAG, ATTRIBUTE]` the property column 1
has the valid target POS_TAG sitting at column 0, but the scan
(`range(col - 1, 0, -1)`) never examines column 0 and construction fails with
the missing-target error instead of binding. -/
theorem c7_scan_counterexample :
    fromString "POS_TAG ATTRIBUTE" = .error (.missingTarget 1)
    ∧ POS_TAG ∈ propertyTargetColumns := by
  exact ⟨rfl, by decide⟩

/-- C8 counterexample: `LOCAL_REF:0` is not rejected — Python indexing wraps
`0 - 1 = -1` to the last column (here RELATION, a valid target kind), so the
header is accepted with the reference target stored as `-1`; and a suffix
beyond the width (`LOCAL_REF:9` on a 4-column header) raises an uncaught
`IndexError` rather than a specification error. -/
theorem c8_suffix_counterexample :
    fromString "TOKEN POS_TAG LOCAL_REF:0 RELATION" =
      .ok ⟨4, some 0, none, none, some 1, [], [], [], [(3, 1)], [],
           [(2, -1)], [], []⟩
    ∧ fromString "TOKEN POS_TAG LOCAL_REF:9 RELATION" = .error .indexError := by
  exact ⟨rfl, rfl⟩

theorem setTargetScanAux_ok_iff (roles targets : List Nat) (srcCol : Nat) :
    ∀ b t, setTargetScanAux roles targets srcCol b = .ok t ↔
      (1 ≤ t ∧ t ≤ b ∧ roles.getD t UNKNOWN ∈ targets ∧
       ∀ k, t < k → k ≤ b → roles.getD k UNKNOWN ∉ targets ∧
         roles.getD k UNKNOWN ∈ skippedColumns) := by
  intro b
  induction b with
  | zero =>
    intro t
    simp only [setTargetScanAux]
    constructor
    · intro h; cases h
    · rintro ⟨h1, h2, _⟩; omega
  | succ b ih =>
    intro t
    simp only [setTargetScanAux]
    by_cases hmem : roles.getD (b + 1) UNKNOWN ∈ targets
    · rw [if_pos hmem]
      constructor
      · intro h
        cases h
        refine ⟨by omega, Nat.le_refl _, hmem, ?_⟩
        intro k hk1 hk2
        omega
      · rintro ⟨h1, h2, h3, h4⟩
        by_cases ht : t = b + 1
        · rw [ht]
        · exact absurd hmem (h4 (b + 1) (by omega) (Nat.le_refl _)).1
    · rw [if_neg hmem]
      by_cases hskip : roles.getD (b + 1) UNKNOWN ∈ skippedColumns
      · rw [if_pos hskip, ih t]
        constructor
        · rintro ⟨h1, h2, h3, h4⟩
          refine ⟨h1, by omega, h3, ?_⟩
          intro k hk1 hk2
          by_cases hk : k = b + 1
          · rw [hk]; exact ⟨hmem, hskip⟩
          · exact h4 k hk1 (by omega)
        · rintro ⟨h1, h2, h3, h4⟩
          have ht : t ≠ b + 1 := fun e => hmem (e ▸ h3)
          refine ⟨h1, by omega, h3, ?_⟩
          intro k hk1 hk2
          exact h4 k hk1 (by omega)
      · rw [if_neg hskip]
        constructor
        · intro h; cases h
        · rintro ⟨h1, h2, h3, h4⟩
          by_cases ht : t = b + 1
          · exact absurd h3 (ht ▸ hmem)
          · exact absurd (h4 (b + 1) (by omega) (Nat.le_refl _)).2 hskip

theorem setTargetScanAux_missing_iff (roles targets : List Nat) (srcCol : Nat) :
    ∀ b, setTargetScanAux roles targets srcCol b = .error (.missingTarget srcCol) ↔
      ∀ k, 1 ≤ k → k ≤ b → roles.getD k UNKNOWN ∉ targets ∧
        roles.getD k UNKNOWN ∈ skippedColumns := by
  intro b
  induction b with
  | zero =>
    simp only [setTargetScanAux]
    constructor
    · intro _ k h1 h2; omega
    · intro _; trivial
  | succ b ih =>
    simp only [setTargetScanAux]
    by_cases hmem : roles.getD (b + 1) UNKNOWN ∈ targets
    · rw [if_pos hmem]
      constructor
      · intro h; cases h
      · intro h
        exact absurd hmem (h (b + 1) (by omega) (Nat.le_refl _)).1
    · rw [if_neg hmem]
      by_cases hskip : roles.getD (b + 1) UNKNOWN ∈ skippedColumns
      · rw [if_pos hskip, ih]
        constructor
        · intro h k h1 h2
          by_cases hk : k = b + 1
          · rw [hk]; exact ⟨hmem, hskip⟩
          · exact h k h1 (by omega)
        · intro h k h1 h2
          exact h k h1 (by omega)
      · rw [if_neg hskip]
        constructor
        · intro h; cases h
        · intro h
          exact absurd (h (b + 1) (by omega) (Nat.le_refl _)).2 hskip

theorem setTargetScanAux_noTarget_iff (roles targets : List Nat) (srcCol : Nat) :
    ∀ b, setTargetScanAux roles targets srcCol b = .error (.noTarget srcCol) ↔
      ∃ k, 1 ≤ k ∧ k ≤ b ∧ roles.getD k UNKNOWN ∉ targets ∧
        roles.getD k UNKNOWN ∉ skippedColumns ∧
        ∀ j, k < j → j ≤ b → roles.getD j UNKNOWN ∉ targets ∧
          roles.getD j UNKNOWN ∈ skippedColumns := by
  intro b
  induction b with
  | zero =>
    simp only [setTargetScanAux]
    constructor
    · intro h; cases h
    · rintro ⟨k, h1, h2, _⟩; omega
  | succ b ih =>
    simp only [setTargetScanAux]
    by_cases hmem : roles.getD (b + 1) UNKNOWN ∈ targets
    · rw [if_pos hmem]
      constructor
      · intro h; cases h
      · rintro ⟨k, h1, h2, h3, h4, h5⟩
        by_cases hk : k = b + 1
        · exact absurd hmem (hk ▸ h3)
        · exact absurd hmem (h5 (b + 1) (by omega) (Nat.le_refl _)).1
    · rw [if_neg hmem]
      by_cases hskip : roles.getD (b + 1) UNKNOWN ∈ skippedColumns
      · rw [if_pos hskip, ih]
        constructor
        · rintro ⟨k, h1, h2, h3, h4, h5⟩
          refine ⟨k, h1, by omega, h3, h4, ?_⟩
          intro j hj1 hj2
          by_cases hj : j = b + 1
          · rw [hj]; exact ⟨hmem, hskip⟩
          · exact h5 j hj1 (by omega)
        · rintro ⟨k, h1, h2, h3, h4, h5⟩
          have hk : k ≠ b + 1 := fun e => h4 (e ▸ hskip)
          refine ⟨k, h1, by omega, h3, h4, ?_⟩
          intro j hj1 hj2
          exact h5 j hj1 (by omega)
      · rw [if_neg hskip]
        constructor
        · intro _
          refine ⟨b + 1, by omega, Nat.le_refl _, hmem, hskip, ?_⟩
          intro j hj1 hj2
          omega
        · intro _; rfl

/-- C7 (amended): the default target-resolution scan walks from `col - 1`
leftward but only down to column 1: it binds to the first column (index at
least 1) whose role is in the allowed target set; it fails with the
no-target error as soon as it meets a column neither a valid target nor in
the skip set; and it fails with the missing-target error when the scan is
exhausted — which includes the case of a valid target sitting at column 0,
since index 0 is never examined. -/
theorem c7_scan_characterization (roles : List Nat) (col : Nat)
    (targets : List Nat) :
    (∀ t : Nat, setTargetScan roles col targets = .ok t ↔
      (1 ≤ t ∧ t < col ∧ roles.getD t UNKNOWN ∈ targets ∧
       ∀ k, t < k → k < col → roles.getD k UNKNOWN ∉ targets ∧
         roles.getD k UNKNOWN ∈ skippedColumns))
    ∧ (setTargetScan roles col targets = .error (.noTarget col) ↔
       ∃ k, 1 ≤ k ∧ k < col ∧ roles.getD k UNKNOWN ∉ targets ∧
         roles.getD k UNKNOWN ∉ skippedColumns ∧
         ∀ j, k < j → j < col → roles.getD j UNKNOWN ∉ targets ∧
           roles.getD j UNKNOWN ∈ skippedColumns)
    ∧ (setTargetScan roles col targets = .error (.missingTarget col) ↔
       ∀ k, 1 ≤ k → k < col → roles.getD k UNKNOWN ∉ targets ∧
         roles.getD k UNKNOWN ∈ skippedColumns) := by
  refine ⟨?_, ?_, ?_⟩
  · intro t
    rw [setTargetScan, setTargetScanAux_ok_iff]
    constructor
    · rintro ⟨h1, h2, h3, h4⟩
      refine ⟨h1, by omega, h3, ?_⟩
      intro k hk1 hk2
      exact h4 k hk1 (by omega)
    · rintro ⟨h1, h2, h3, h4⟩
      refine ⟨h1, by omega, h3, ?_⟩
      intro k hk1 hk2
      exact h4 k hk1 (by omega)
  · rw [setTargetScan, setTargetScanAux_noTarget_iff]
    constructor
    · rintro ⟨k, h1, h2, h3, h4, h5⟩
      refine ⟨k, h1, by omega, h3, h4, ?_⟩
      intro j hj1 hj2
      exact h5 j hj1 (by omega)
    · rintro ⟨k, h1, h2, h3, h4, h5⟩
      refine ⟨k, h1, by omega, h3, h4, ?_⟩
      intro j hj1 hj2
      exact h5 j hj1 (by omega)
  · rw [setTargetScan, setTargetScanAux_missing_iff]
    constructor
    · intro h k h1 h2
      exact h k h1 (by omega)
    · intro h k h1 h2
      exact h k h1 (by omega)

/-- Witness for C7 at roles `[TOKEN, POS_TAG, LOCAL_REF, RELATION]`: the
relation-style scan from column 3 skips the LOCAL_REF at 2 and binds the
POS_TAG at column 1. -/
theorem c7_scan_characterization_witness :
    setTargetScan [TOKEN, POS_TAG, LOCAL_REF, RELATION] 3 entityColumns =
      .ok 1 := by
  refine ((c7_scan_characterization [TOKEN, POS_TAG, LOCAL_REF, RELATION] 3
    entityColumns).1 1).mpr ⟨by omega, by omega, by decide, ?_⟩
  intro k hk1 hk2
  have hk : k = 2 := by omega
  subst hk
  exact ⟨by decide, by decide⟩

theorem get?_eq_some_getD (l : List Nat) (i : Nat) (h : i < l.length) :
    l.get? i = some (l.getD i UNKNOWN) := by
  rw [List.getD_eq_get?]
  cases hx : l.get? i with
  | none => exact absurd (List.get?_eq_none.mp hx) (by omega)
  | some v => simp

theorem pyGetNat_pos (l : List Nat) (n : Nat) (h1 : 1 ≤ n) (h2 : n ≤ l.length) :
    pyGetNat l ((n : Int) - 1) = .ok (l.getD (n - 1) UNKNOWN) := by
  simp only [pyGetNat]
  rw [if_pos (by omega : (0 : Int) ≤ (n : Int) - 1)]
  rw [show ((n : Int) - 1).toNat = n - 1 from by omega]
  rw [get?_eq_some_getD l (n - 1) (by omega)]

theorem pyGetNat_neg_one (l : List Nat) (h : l ≠ []) :
    pyGetNat l (-1) = .ok (l.getD (l.length - 1) UNKNOWN) := by
  have hlen : 1 ≤ l.length := by
    cases l with
    | nil => exact absurd rfl h
    | cons a t => simp
  simp only [pyGetNat]
  rw [if_neg (by omega : ¬ (0 : Int) ≤ -1)]
  rw [show ((-(-1 : Int)).toNat) = 1 from by omega]
  rw [if_pos hlen]
  rw [get?_eq_some_getD l (l.length - 1) (by omega)]

theorem pyGetNat_too_big (l : List Nat) (n : Nat) (h : l.length < n) :
    pyGetNat l ((n : Int) - 1) = .error .indexError := by
  simp only [pyGetNat]
  rw [if_pos (by omega : (0 : Int) ≤ (n : Int) - 1)]
  rw [show ((n : Int) - 1).toNat = n - 1 from by omega]
  rw [List.get?_eq_none.mpr (by omega)]

/-- C8 (amended): an explicit `NAME:N` suffix resolves as follows.  For
`1 ≤ N ≤ width` the binding goes to column `N - 1` exactly when that
column's role is a valid target kind (POS_TAG, ENTITY, RELATION or EVENT),
and is otherwise rejected with the invalid-target specification error.  But
`N = 0` is *not* rejected: Python indexing wraps `N - 1 = -1` to the last
column, which is accepted (with stored target `-1`) whenever the last
column's role is a valid target kind; and `N > width` raises an uncaught
`IndexError` instead of a specification error. -/
theorem c8_suffix_target_resolution :
    (∀ (roles : List Nat) (col n : Nat), 1 ≤ n → n ≤ roles.length →
      resolveSuffixTarget roles col (n : Int) =
        (if roles.getD (n - 1) UNKNOWN ∈ propertyTargetColumns
         then .ok ((n - 1 : Nat) : Int)
         else .error (.invalidSuffixTarget col)))
    ∧ (∀ (roles : List Nat) (col : Nat), roles ≠ [] →
        resolveSuffixTarget roles col 0 =
          (if roles.getD (roles.length - 1) UNKNOWN ∈ propertyTargetColumns
           then .ok (-1)
           else .error (.invalidSuffixTarget col)))
    ∧ (∀ (roles : List Nat) (col n : Nat), roles.length < n →
        resolveSuffixTarget roles col (n : Int) = .error .indexError) := by
  refine ⟨?_, ?_, ?_⟩
  · intro roles col n h1 h2
    simp only [resolveSuffixTarget]
    rw [pyGetNat_pos roles n h1 h2]
    rw [show ((n : Int) - 1) = ((n - 1 : Nat) : Int) from by omega]
  · intro roles col h
    simp only [resolveSuffixTarget]
    rw [show ((0 : Int) - 1) = -1 from by omega]
    rw [pyGetNat_neg_one roles h]
  · intro roles col n h
    simp only [resolveSuffixTarget]
    rw [pyGetNat_too_big roles n h]

/-- Witness for C8 on roles `[TOKEN, POS_TAG, LOCAL_REF, RELATION]`:
`:2` binds column 1 (POS_TAG), `:0` wraps to the last column (RELATION) and
is accepted with stored target `-1`, `:9` is an `IndexError`. -/
theorem c8_suffix_target_resolution_witness :
    resolveSuffixTarget [TOKEN, POS_TAG, LOCAL_REF, RELATION] 2 ((2 : Nat) : Int) =
      .ok ((1 : Nat) : Int)
    ∧ resolveSuffixTarget [TOKEN, POS_TAG, LOCAL_REF, RELATION] 2 0 = .ok (-1)
    ∧ resolveSuffixTarget [TOKEN, POS_TAG, LOCAL_REF, RELATION] 2 ((9 : Nat) : Int) =
      .error .indexError := by
  refine ⟨?_, ?_, ?_⟩
  · rw [c8_suffix_target_resolution.1 [TOKEN, POS_TAG, LOCAL_REF, RELATION] 2 2
      (by omega) (by decide)]
    rfl
  · rw [c8_suffix_target_resolution.2.1 [TOKEN, POS_TAG, LOCAL_REF, RELATION] 2
      (by decide)]
    rfl
  · exact c8_suffix_target_resolution.2.2 [TOKEN, POS_TAG, LOCAL_REF, RELATION]
      2 9 (by decide)

theorem singleInv_extend {f : Option Nat} {role r : Nat} {roles : List Nat}
    {k : Nat} (hne : r ≠ role) (h : singleInv f role roles k)
    (hk : roles.get? k = some r) : singleInv f role roles (k + 1) := by
  intro i
  rw [h i]
  constructor
  · rintro ⟨h1, h2⟩
    exact ⟨by omega, h2⟩
  · rintro ⟨h1, h2⟩
    by_cases hik : i = k
    · subst hik
      rw [hk] at h2
      injection h2 with he
      exact absurd he hne
    · exact ⟨by omega, h2⟩

theorem listInv_extend {l : List Nat} {role r : Nat} {roles : List Nat}
    {k : Nat} (hne : r ≠ role) (h : listInv l role roles k)
    (hk : roles.get? k = some r) : listInv l role roles (k + 1) := by
  intro i
  rw [h i]
  constructor
  · rintro ⟨h1, h2⟩
    exact ⟨by omega, h2⟩
  · rintro ⟨h1, h2⟩
    by_cases hik : i = k
    · subst hik
      rw [hk] at h2
      injection h2 with he
      exact absurd he hne
    · exact ⟨by omega, h2⟩

theorem mapInv_extend {α : Type} {m : List (Nat × α)} {role r : Nat}
    {roles : List Nat} {k : Nat} (hne : r ≠ role) (h : mapInv m role roles k)
    (hk : roles.get? k = some r) : mapInv m role roles (k + 1) := by
  intro i
  rw [h i]
  constructor
  · rintro ⟨h1, h2⟩
    exact ⟨by omega, h2⟩
  · rintro ⟨h1, h2⟩
    by_cases hik : i = k
    · subst hik
      rw [hk] at h2
      injection h2 with he
      exact absurd he hne
    · exact ⟨by omega, h2⟩

theorem singleInv_insert {role : Nat} {roles : List Nat} {k : Nat}
    (h : singleInv (none : Option Nat) role roles k)
    (hk : roles.get? k = some role) : singleInv (some k) role roles (k + 1) := by
  intro i
  constructor
  · intro hsome
    injection hsome with he
    subst he
    exact ⟨by omega, hk⟩
  · rintro ⟨h1, h2⟩
    by_cases hik : i = k
    · rw [hik]
    · have := (h i).mpr ⟨by omega, h2⟩
      cases this

theorem listInv_insert {l : List Nat} {role : Nat} {roles : List Nat} {k : Nat}
    (h : listInv l role roles k) (hk : roles.get? k = some role) :
    listInv (l ++ [k]) role roles (k + 1) := by
  intro i
  rw [List.mem_append, List.mem_singleton, h i]
  constructor
  · rintro (⟨h1, h2⟩ | rfl)
    · exact ⟨by omega, h2⟩
    · exact ⟨by omega, hk⟩
  · rintro ⟨h1, h2⟩
    by_cases hik : i = k
    · right; exact hik
    · left; exact ⟨by omega, h2⟩

theorem lookup_append_isSome {α : Type} (l₁ l₂ : List (Nat × α)) (a : Nat) :
    ((l₁ ++ l₂).lookup a).isSome =
      ((l₁.lookup a).isSome || (l₂.lookup a).isSome) := by
  induction l₁ with
  | nil => simp [List.lookup]
  | cons b rest ih =>
    obtain ⟨key, v⟩ := b
    simp only [List.cons_append, List.lookup]
    cases hab : (a == key) <;> simp [hab, ih]

theorem lookup_singleton_isSome {α : Type} (k : Nat) (t : α) (i : Nat) :
    (([(k, t)] : List (Nat × α)).lookup i).isSome = (i == k) := by
  simp only [List.lookup]
  cases hik : (i == k) <;> simp [hik]

theorem mapInv_insert {α : Type} {m : List (Nat × α)} {role : Nat}
    {roles : List Nat} {k : Nat} (t : α) (h : mapInv m role roles k)
    (hk : roles.get? k = some role) :
    mapInv (m ++ [(k, t)]) role roles (k + 1) := by
  intro i
  rw [lookup_append_isSome, Bool.or_eq_true, lookup_singleton_isSome, h i]
  constructor
  · rintro (⟨h1, h2⟩ | he)
    · exact ⟨by omega, h2⟩
    · have hik : i = k := by simpa using he
      subst hik
      exact ⟨by omega, hk⟩
  · rintro ⟨h1, h2⟩
    by_cases hik : i = k
    · right; simp [hik]
    · left; exact ⟨by omega, h2⟩

theorem buildInv_zero (roles : List Nat) : BuildInv roles 0 {} := by
  refine ⟨?_, ?_, ?_, ?_, ?_, ?_, ?_, ?_, ?_, ?_, ?_, ?_⟩ <;>
    intro i <;> simp [List.lookup]

theorem addTargeted_ok (m : List (Nat × Int)) (col : Nat)
    (tr : Except SpecErr Int) (m2 : List (Nat × Int))
    (h : addTargeted m col tr = .ok m2) :
    ∃ t, tr = .ok t ∧ m2 = m ++ [(col, t)] := by
  unfold addTargeted ensureUndefined at h
  by_cases hl : (m.lookup col).isSome = true
  · rw [if_pos hl] at h
    dsimp only at h
    cases h
  · rw [if_neg hl] at h
    dsimp only at h
    cases tr with
    | error e => cases h
    | ok t =>
      injection h with h2
      exact ⟨t, rfl, h2.symm⟩

theorem dispatch_not_annot (roles : List Nat) (headers : List String)
    (st st' : BuildState) (k : Nat)
    (hd : dispatchColumn roles headers st k ANNOT = .ok st') : False := by
  simp [dispatchColumn, ANNOT, TOKEN, GLOBAL_ENUM, LOCAL_ENUM, POS_TAG,
    SEGMENT_ID, ENTITY, EVENT, RELATION, GLOBAL_REF, LOCAL_REF,
    NORMALIZATION, ATTRIBUTE, UNKNOWN] at hd

theorem dispatch_inv (roles : List Nat) (headers : List String)
    (st st' : BuildState) (k r : Nat)
    (hr : roles.get? k = some r)
    (hInv : BuildInv roles k st)
    (hd : dispatchColumn roles headers st k r = .ok st') :
    BuildInv roles (k + 1) st' := by
  obtain ⟨i1, i2, i3, i4, i5, i6, i7, i8, i9, i10, i11, i12⟩ := hInv
  unfold dispatchColumn at hd
  by_cases hT : r = TOKEN
  · rw [if_pos hT] at hd
    subst hT
    cases htok : st.token with
    | some j => rw [htok] at hd; simp only [setSingle] at hd; cases hd
    | none =>
      rw [htok] at hd
      simp only [setSingle] at hd
      injection hd with hd2
      subst hd2
      exact ⟨singleInv_insert (htok ▸ i1) hr, singleInv_extend (by decide) i2 hr,
        singleInv_extend (by decide) i3 hr, singleInv_extend (by decide) i4 hr,
        listInv_extend (by decide) i5 hr, listInv_extend (by decide) i6 hr,
        listInv_extend (by decide) i7 hr, mapInv_extend (by decide) i8 hr,
        mapInv_extend (by decide) i9 hr, mapInv_extend (by decide) i10 hr,
        mapInv_extend (by decide) i11 hr, mapInv_extend (by decide) i12 hr⟩
  rw [if_neg hT] at hd
  by_cases hGE : r = GLOBAL_ENUM
  · rw [if_pos hGE] at hd
    subst hGE
    cases hge : st.globalEnum with
    | some j => rw [hge] at hd; simp only [setSingle] at hd; cases hd
    | none =>
      rw [hge] at hd
      simp only [setSingle] at hd
      injection hd with hd2
      subst hd2
      exact ⟨singleInv_extend (by decide) i1 hr, singleInv_insert (hge ▸ i2) hr,
        singleInv_extend (by decide) i3 hr, singleInv_extend (by decide) i4 hr,
        listInv_extend (by decide) i5 hr, listInv_extend (by decide) i6 hr,
        listInv_extend (by decide) i7 hr, mapInv_extend (by decide) i8 hr,
        mapInv_extend (by decide) i9 hr, mapInv_extend (by decide) i10 hr,
        mapInv_extend (by decide) i11 hr, mapInv_extend (by decide) i12 hr⟩
  rw [if_neg hGE] at hd
  by_cases hLE : r = LOCAL_ENUM
  · rw [if_pos hLE] at hd
    subst hLE
    cases hle : st.localEnum with
    | some j => rw [hle] at hd; simp only [setSingle] at hd; cases hd
    | none =>
      rw [hle] at hd
      simp only [setSingle] at hd
      injection hd with hd2
      subst hd2
      exact ⟨singleInv_extend (by decide) i1 hr, singleInv_extend (by decide) i2 hr,
        singleInv_insert (hle ▸ i3) hr, singleInv_extend (by decide) i4 hr,
        listInv_extend (by decide) i5 hr, listInv_extend (by decide) i6 hr,
        listInv_extend (by decide) i7 hr, mapInv_extend (by decide) i8 hr,
        mapInv_extend (by decide) i9 hr, mapInv_extend (by decide) i10 hr,
        mapInv_extend (by decide) i11 hr, mapInv_extend (by decide) i12 hr⟩
  rw [if_neg hLE] at hd
  by_cases hPT : r = POS_TAG
  · rw [if_pos hPT] at hd
    subst hPT
    cases hpt : st.posTag with
    | some j => rw [hpt] at hd; simp only [setSingle] at hd; cases hd
    | none =>
      rw [hpt] at hd
      simp only [setSingle] at hd
      injection hd with hd2
      subst hd2
      exact ⟨singleInv_extend (by decide) i1 hr, singleInv_extend (by decide) i2 hr,
        singleInv_extend (by decide) i3 hr, singleInv_insert (hpt ▸ i4) hr,
        listInv_extend (by decide) i5 hr, listInv_extend (by decide) i6 hr,
        listInv_extend (by decide) i7 hr, mapInv_extend (by decide) i8 hr,
        mapInv_extend (by decide) i9 hr, mapInv_extend (by decide) i10 hr,
        mapInv_extend (by decide) i11 hr, mapInv_extend (by decide) i12 hr⟩
  rw [if_neg hPT] at hd
  by_cases hSI : r = SEGMENT_ID
  · rw [if_pos hSI] at hd
    subst hSI
    injection hd with hd2
    subst hd2
    exact ⟨singleInv_extend (by decide) i1 hr, singleInv_extend (by decide) i2 hr,
      singleInv_extend (by decide) i3 hr, singleInv_extend (by decide) i4 hr,
      listInv_insert i5 hr, listInv_extend (by decide) i6 hr,
      listInv_extend (by decide) i7 hr, mapInv_extend (by decide) i8 hr,
      mapInv_extend (by decide) i9 hr, mapInv_extend (by decide) i10 hr,
      mapInv_extend (by decide) i11 hr, mapInv_extend (by decide) i12 hr⟩
  rw [if_neg hSI] at hd
  by_cases hEN : r = ENTITY
  · rw [if_pos hEN] at hd
    subst hEN
    injection hd with hd2
    subst hd2
    exact ⟨singleInv_extend (by decide) i1 hr, singleInv_extend (by decide) i2 hr,
      singleInv_extend (by decide) i3 hr, singleInv_extend (by decide) i4 hr,
      listInv_extend (by decide) i5 hr, listInv_insert i6 hr,
      listInv_extend (by decide) i7 hr, mapInv_extend (by decide) i8 hr,
      mapInv_extend (by decide) i9 hr, mapInv_extend (by decide) i10 hr,
      mapInv_extend (by decide) i11 hr, mapInv_extend (by decide) i12 hr⟩
  rw [if_neg hEN] at hd
  by_cases hEV : r = EVENT
  · rw [if_pos hEV] at hd
    subst hEV
    have hc : ¬ (st.eventsPending.contains k = true) := by
      intro hb
      have hk2 : k ∈ st.eventsPending := List.mem_of_elem_eq_true hb
      have := (i7 k).mp hk2
      omega
    rw [if_neg hc] at hd
    injection hd with hd2
    subst hd2
    exact ⟨singleInv_extend (by decide) i1 hr, singleInv_extend (by decide) i2 hr,
      singleInv_extend (by decide) i3 hr, singleInv_extend (by decide) i4 hr,
      listInv_extend (by decide) i5 hr, listInv_extend (by decide) i6 hr,
      listInv_insert i7 hr, mapInv_extend (by decide) i8 hr,
      mapInv_extend (by decide) i9 hr, mapInv_extend (by decide) i10 hr,
      mapInv_extend (by decide) i11 hr, mapInv_extend (by decide) i12 hr⟩
  rw [if_neg hEV] at hd
  by_cases hRE : r = RELATION
  · rw [if_pos hRE] at hd
    subst hRE
    cases hprev : pyGetNat roles ((k : Int) - 1) with
    | error e => rw [hprev] at hd; cases hd
    | ok prev =>
      rw [hprev] at hd
      dsimp only at hd
      by_cases hpl : prev = LOCAL_REF ∨ prev = GLOBAL_REF
      · rw [if_pos hpl] at hd
        cases hadd : addTargeted st.relations k (setTargetFromHeader roles headers k) with
        | error e => rw [hadd] at hd; cases hd
        | ok m =>
          rw [hadd] at hd
          dsimp only at hd
          injection hd with hd2
          subst hd2
          obtain ⟨t, _, hm⟩ := addTargeted_ok _ _ _ _ hadd
          subst hm
          exact ⟨singleInv_extend (by decide) i1 hr, singleInv_extend (by decide) i2 hr,
            singleInv_extend (by decide) i3 hr, singleInv_extend (by decide) i4 hr,
            listInv_extend (by decide) i5 hr, listInv_extend (by decide) i6 hr,
            listInv_extend (by decide) i7 hr, mapInv_insert t i8 hr,
            mapInv_extend (by decide) i9 hr, mapInv_extend (by decide) i10 hr,
            mapInv_extend (by decide) i11 hr, mapInv_extend (by decide) i12 hr⟩
      · rw [if_neg hpl] at hd
        cases hd
  rw [if_neg hRE] at hd
  by_cases hGR : r = GLOBAL_REF
  · rw [if_pos hGR] at hd
    subst hGR
    cases hadd : addTargeted st.globalRefs k (setTargetFromHeader roles headers k) with
    | error e => rw [hadd] at hd; cases hd
    | ok m =>
      rw [hadd] at hd
      dsimp only at hd
      injection hd with hd2
      subst hd2
      obtain ⟨t, _, hm⟩ := addTargeted_ok _ _ _ _ hadd
      subst hm
      exact ⟨singleInv_extend (by decide) i1 hr, singleInv_extend (by decide) i2 hr,
        singleInv_extend (by decide) i3 hr, singleInv_extend (by decide) i4 hr,
        listInv_extend (by decide) i5 hr, listInv_extend (by decide) i6 hr,
        listInv_extend (by decide) i7 hr, mapInv_extend (by decide) i8 hr,
        mapInv_insert t i9 hr, mapInv_extend (by decide) i10 hr,
        mapInv_extend (by decide) i11 hr, mapInv_extend (by decide) i12 hr⟩
  rw [if_neg hGR] at hd
  by_cases hLR : r = LOCAL_REF
  · rw [if_pos hLR] at hd
    subst hLR
    cases hadd : addTargeted st.localRefs k (setTargetFromHeader roles headers k) with
    | error e => rw [hadd] at hd; cases hd
    | ok m =>
      rw [hadd] at hd
      dsimp only at hd
      injection hd with hd2
      subst hd2
      obtain ⟨t, _, hm⟩ := addTargeted_ok _ _ _ _ hadd
      subst hm
      exact ⟨singleInv_extend (by decide) i1 hr, singleInv_extend (by decide) i2 hr,
        singleInv_extend (by decide) i3 hr, singleInv_extend (by decide) i4 hr,
        listInv_extend (by decide) i5 hr, listInv_extend (by decide) i6 hr,
        listInv_extend (by decide) i7 hr, mapInv_extend (by decide) i8 hr,
        mapInv_extend (by decide) i9 hr, mapInv_insert t i10 hr,
        mapInv_extend (by decide) i11 hr, mapInv_extend (by decide) i12 hr⟩
  rw [if_neg hLR] at hd
  by_cases hNO : r = NORMALIZATION
  · rw [if_pos hNO] at hd
    subst hNO
    cases hadd : addTargeted st.normalizations k
        ((setTargetScan roles k propertyTargetColumns).map Int.ofNat) with
    | error e => rw [hadd] at hd; cases hd
    | ok m =>
      rw [hadd] at hd
      dsimp only at hd
      injection hd with hd2
      subst hd2
      obtain ⟨t, _, hm⟩ := addTargeted_ok _ _ _ _ hadd
      subst hm
      exact ⟨singleInv_extend (by decide) i1 hr, singleInv_extend (by decide) i2 hr,
        singleInv_extend (by decide) i3 hr, singleInv_extend (by decide) i4 hr,
        listInv_extend (by decide) i5 hr, listInv_extend (by decide) i6 hr,
        listInv_extend (by decide) i7 hr, mapInv_extend (by decide) i8 hr,
        mapInv_extend (by decide) i9 hr, mapInv_extend (by decide) i10 hr,
        mapInv_insert t i11 hr, mapInv_extend (by decide) i12 hr⟩
  rw [if_neg hNO] at hd
  by_cases hAT : r = ATTRIBUTE
  · rw [if_pos hAT] at hd
    subst hAT
    cases hadd : addTargeted st.attributes k
        ((setTargetScan roles k propertyTargetColumns).map Int.ofNat) with
    | error e => rw [hadd] at hd; cases hd
    | ok m =>
      rw [hadd] at hd
      dsimp only at hd
      injection hd with hd2
      subst hd2
      obtain ⟨t, _, hm⟩ := addTargeted_ok _ _ _ _ hadd
      subst hm
      exact ⟨singleInv_extend (by decide) i1 hr, singleInv_extend (by decide) i2 hr,
        singleInv_extend (by decide) i3 hr, singleInv_extend (by decide) i4 hr,
        listInv_extend (by decide) i5 hr, listInv_extend (by decide) i6 hr,
        listInv_extend (by decide) i7 hr, mapInv_extend (by decide) i8 hr,
        mapInv_extend (by decide) i9 hr, mapInv_extend (by decide) i10 hr,
        mapInv_extend (by decide) i11 hr, mapInv_insert t i12 hr⟩
  rw [if_neg hAT] at hd
  by_cases hUN : r = UNKNOWN
  · rw [if_pos hUN] at hd
    subst hUN
    injection hd with hd2
    subst hd2
    exact ⟨singleInv_extend (by decide) i1 hr, singleInv_extend (by decide) i2 hr,
      singleInv_extend (by decide) i3 hr, singleInv_extend (by decide) i4 hr,
      listInv_extend (by decide) i5 hr, listInv_extend (by decide) i6 hr,
      listInv_extend (by decide) i7 hr, mapInv_extend (by decide) i8 hr,
      mapInv_extend (by decide) i9 hr, mapInv_extend (by decide) i10 hr,
      mapInv_extend (by decide) i11 hr, mapInv_extend (by decide) i12 hr⟩
  rw [if_neg hUN] at hd
  cases hd

theorem buildFrom_inv (roles : List Nat) (headers : List String) :
    ∀ (rest : List Nat) (k : Nat) (st st' : BuildState),
      roles.drop k = rest →
      BuildInv roles k st →
      buildFrom roles headers k rest st = .ok st' →
      BuildInv roles (k + rest.length) st' ∧
      ∀ i r2, k ≤ i → roles.get? i = some r2 → r2 ≠ ANNOT := by
  intro rest
  induction rest with
  | nil =>
    intro k st st' hdrop hInv hb
    simp only [buildFrom] at hb
    injection hb with hb2
    subst hb2
    refine ⟨hInv, ?_⟩
    intro i r2 hki hget
    have hlen : roles.length ≤ k := by
      have hc := congrArg List.length hdrop
      simp only [List.length_drop, List.length_nil] at hc
      omega
    rw [List.get?_eq_none.mpr (by omega)] at hget
    cases hget
  | cons r0 rs ih =>
    intro k st st' hdrop hInv hb
    have hget : roles.get? k = some r0 := by
      have h0 : (roles.drop k).get? 0 = some r0 := by rw [hdrop]; rfl
      rw [List.get?_drop] at h0
      simpa using h0
    have hdrop2 : roles.drop (k + 1) = rs := by
      have h1 := List.drop_drop 1 k roles
      rw [hdrop] at h1
      rw [← h1]
      rfl
    simp only [buildFrom] at hb
    cases hdk : dispatchColumn roles headers st k r0 with
    | error e => rw [hdk] at hb; cases hb
    | ok st2 =>
      rw [hdk] at hb
      have hInv2 := dispatch_inv roles headers st st2 k r0 hget hInv hdk
      obtain ⟨hI, hA⟩ := ih (k + 1) st2 st' hdrop2 hInv2 hb
      constructor
      · rw [show k + (r0 :: rs).length = (k + 1) + rs.length from by
          simp [List.length_cons]; omega]
        exact hI
      · intro i r2 hki hget2
        by_cases hik : i = k
        · subst hik
          rw [hget] at hget2
          injection hget2 with he
          subst he
          intro hann
          exact dispatch_not_annot roles headers st st2 i (hann ▸ hdk)
        · exact hA i r2 (by omega) hget2

theorem initEvents_keys (roles : List Nat) :
    ∀ (pending : List Nat) (evs : List (Nat × (Nat × List Nat))),
      initEvents roles pending = .ok evs →
      ∀ i, (evs.lookup i).isSome = true ↔ i ∈ pending := by
  intro pending
  induction pending with
  | nil =>
    intro evs h i
    injection h with h2
    subst h2
    simp [List.lookup]
  | cons col rest ih =>
    intro evs h i
    simp only [initEvents] at h
    cases hm : (referencesBefore roles col).reverse with
    | nil => rw [hm] at h; cases h
    | cons t more =>
      rw [hm] at h
      cases more with
      | nil => cases h
      | cons m0 ms =>
        dsimp only at h
        cases hrec : initEvents roles rest with
        | error e => rw [hrec] at h; cases h
        | ok evs2 =>
          rw [hrec] at h
          injection h with h2
          subst h2
          by_cases hic : i = col
          · subst hic
            simp [List.lookup]
          · have hbne : (i == col) = false := by simp [hic]
            simp only [List.lookup, hbne, List.mem_cons]
            rw [ih evs2 hrec i]
            constructor
            · intro hx; exact Or.inr hx
            · rintro (hx | hx)
              · exact absurd hx hic
              · exact hx

theorem lookup_mem {α β : Type} [BEq α] [LawfulBEq α] :
    ∀ (l : List (α × β)) (a : α) (b : β), l.lookup a = some b → (a, b) ∈ l := by
  intro l
  induction l with
  | nil => intro a b h; cases h
  | cons p rest ih =>
    intro a b h
    obtain ⟨k, v⟩ := p
    simp only [List.lookup] at h
    cases hak : (a == k) with
    | true =>
      rw [hak] at h
      injection h with h2
      subst h2
      exact List.mem_cons.mpr (Or.inl (by rw [eq_of_beq hak]))
    | false =>
      rw [hak] at h
      exact List.mem_cons.mpr (Or.inr (ih a b h))

theorem forall2_right_mem {A B : Type} {P : A → B → Prop} {l1 : List A}
    {l2 : List B} (hf : List.Forall₂ P l1 l2) :
    ∀ b ∈ l2, ∃ a ∈ l1, P a b := by
  induction hf with
  | nil => intro b hb; cases hb
  | cons hpair _ ih =>
    intro b hb
    rcases List.mem_cons.mp hb with hb | hb
    · subst hb
      exact ⟨_, List.mem_cons_self _ _, hpair⟩
    · obtain ⟨a, ha, hr⟩ := ih b hb
      exact ⟨a, List.mem_cons.mpr (Or.inr ha), hr⟩

theorem parseColspecAux_spec :
    ∀ (names : List String) (idx : Nat) (roles : List Nat),
      parseColspecAux idx names = .ok roles →
      List.Forall₂ (fun nm r => NAMES.lookup (stripSuffix nm) = some r)
        names roles := by
  intro names
  induction names with
  | nil =>
    intro idx roles h
    injection h with h2
    subst h2
    exact List.Forall₂.nil
  | cons nm rest ih =>
    intro idx roles h
    simp only [parseColspecAux] at h
    cases hl : NAMES.lookup (stripSuffix nm) with
    | none => rw [hl] at h; cases h
    | some v =>
      rw [hl] at h
      dsimp only at h
      cases hrec : parseColspecAux (idx + 1) rest with
      | error e => rw [hrec] at h; cases h
      | ok vs =>
        rw [hrec] at h
        injection h with h2
        subst h2
        exact List.Forall₂.cons hl (ih (idx + 1) vs hrec)

instance knownRole_decidable (r : Nat) : Decidable (knownRole r) := by
  unfold knownRole
  infer_instance

/-- Every entry of the `NAMES` table round-trips through `INTEGERS`, maps to
`UNKNOWN` exactly for the `_UNKNOWN` name, and carries a value the
construction dispatch recognises (or the `_ANNOTATION` sentinel). -/
theorem mem_NAMES_spec :
    ∀ p ∈ NAMES, nameOfRole p.2 = p.1 ∧ (p.2 = UNKNOWN ↔ p.1 = "_UNKNOWN") ∧
      (p.2 = ANNOT ∨ knownRole p.2) := by decide

theorem NAMES_lookup_spec (nm : String) (r : Nat)
    (h : NAMES.lookup nm = some r) :
    nameOfRole r = nm ∧ (r = UNKNOWN ↔ nm = "_UNKNOWN") ∧
    (r = ANNOT ∨ knownRole r) :=
  mem_NAMES_spec (nm, r) (lookup_mem NAMES nm r h)

/-- Refutation helpers for the `getType` membership tests. -/
theorem singleInv_ne_some {f : Option Nat} {role : Nat} {roles : List Nat}
    {k col : Nat} (h : singleInv f role roles k)
    (hne : ¬ roles.get? col = some role) : ¬ f = some col :=
  fun hc => hne ((h col).mp hc).2

theorem listInv_not_mem {l : List Nat} {role : Nat} {roles : List Nat}
    {k col : Nat} (h : listInv l role roles k)
    (hne : ¬ roles.get? col = some role) : ¬ col ∈ l :=
  fun hc => hne ((h col).mp hc).2

theorem mapInv_not_isSome {α : Type} {m : List (Nat × α)} {role : Nat}
    {roles : List Nat} {k col : Nat} (h : mapInv m role roles k)
    (hne : ¬ roles.get? col = some role) : ¬ (m.lookup col).isSome = true :=
  fun hc => hne ((h col).mp hc).2

theorem getType_char (roles : List Nat) (st : BuildState)
    (evs : List (Nat × (Nat × List Nat)))
    (hInv : BuildInv roles roles.length st)
    (hev : ∀ i, (evs.lookup i).isSome = true ↔ i ∈ st.eventsPending)
    (hkn : ∀ i r, roles.get? i = some r → knownRole r) :
    ∀ col, getType ⟨roles.length, st.token, st.globalEnum, st.localEnum,
        st.posTag, st.segmentIds, st.entities, evs, st.relations,
        st.globalRefs, st.localRefs, st.normalizations, st.attributes⟩ col =
      (roles.get? col).bind
        (fun r => if r = UNKNOWN then none else some r) := by
  obtain ⟨i1, i2, i3, i4, i5, i6, i7, i8, i9, i10, i11, i12⟩ := hInv
  have i7m : mapInv evs EVENT roles roles.length :=
    fun i => (hev i).trans (i7 i)
  intro col
  cases hcol : roles.get? col with
  | none =>
    unfold getType
    dsimp only
    rw [if_neg (singleInv_ne_some i1 (by rw [hcol]; decide)),
      if_neg (singleInv_ne_some i2 (by rw [hcol]; decide)),
      if_neg (singleInv_ne_some i3 (by rw [hcol]; decide)),
      if_neg (singleInv_ne_some i4 (by rw [hcol]; decide)),
      if_neg (listInv_not_mem i5 (by rw [hcol]; decide)),
      if_neg (listInv_not_mem i6 (by rw [hcol]; decide)),
      if_neg (mapInv_not_isSome i7m (by rw [hcol]; decide)),
      if_neg (mapInv_not_isSome i8 (by rw [hcol]; decide)),
      if_neg (mapInv_not_isSome i11 (by rw [hcol]; decide)),
      if_neg (mapInv_not_isSome i12 (by rw [hcol]; decide)),
      if_neg (mapInv_not_isSome i9 (by rw [hcol]; decide)),
      if_neg (mapInv_not_isSome i10 (by rw [hcol]; decide))]
    simp [hcol]
  | some r =>
    have hcl : col < roles.length := by
      rcases List.get?_eq_some.mp hcol with ⟨hlt, _⟩
      exact hlt
    rcases hkn col r hcol with rfl | rfl | rfl | rfl | rfl | rfl | rfl | rfl |
      rfl | rfl | rfl | rfl | rfl
    · unfold getType
      dsimp only
      rw [if_pos ((i1 col).mpr ⟨hcl, hcol⟩)]
      simp [hcol, TOKEN, GLOBAL_ENUM, LOCAL_ENUM, POS_TAG, SEGMENT_ID, ENTITY, NORMALIZATION, RELATION, EVENT, ATTRIBUTE, LOCAL_REF, GLOBAL_REF, UNKNOWN]
    · unfold getType
      dsimp only
      rw [if_neg (singleInv_ne_some i1 (by rw [hcol]; decide)),
        if_pos ((i2 col).mpr ⟨hcl, hcol⟩)]
      simp [hcol, TOKEN, GLOBAL_ENUM, LOCAL_ENUM, POS_TAG, SEGMENT_ID, ENTITY, NORMALIZATION, RELATION, EVENT, ATTRIBUTE, LOCAL_REF, GLOBAL_REF, UNKNOWN]
    · unfold getType
      dsimp only
      rw [if_neg (singleInv_ne_some i1 (by rw [hcol]; decide)),
        if_neg (singleInv_ne_some i2 (by rw [hcol]; decide)),
        if_pos ((i3 col).mpr ⟨hcl, hcol⟩)]
      simp [hcol, TOKEN, GLOBAL_ENUM, LOCAL_ENUM, POS_TAG, SEGMENT_ID, ENTITY, NORMALIZATION, RELATION, EVENT, ATTRIBUTE, LOCAL_REF, GLOBAL_REF, UNKNOWN]
    · unfold getType
      dsimp only
      rw [if_neg (singleInv_ne_some i1 (by rw [hcol]; decide)),
        if_neg (singleInv_ne_some i2 (by rw [hcol]; decide)),
        if_neg (singleInv_ne_some i3 (by rw [hcol]; decide)),
        if_pos ((i4 col).mpr ⟨hcl, hcol⟩)]
      simp [hcol, TOKEN, GLOBAL_ENUM, LOCAL_ENUM, POS_TAG, SEGMENT_ID, ENTITY, NORMALIZATION, RELATION, EVENT, ATTRIBUTE, LOCAL_REF, GLOBAL_REF, UNKNOWN]
    · unfold getType
      dsimp only
      rw [if_neg (singleInv_ne_some i1 (by rw [hcol]; decide)),
        if_neg (singleInv_ne_some i2 (by rw [hcol]; decide)),
        if_neg (singleInv_ne_some i3 (by rw [hcol]; decide)),
        if_neg (singleInv_ne_some i4 (by rw [hcol]; decide)),
        if_pos ((i5 col).mpr ⟨hcl, hcol⟩)]
      simp [hcol, TOKEN, GLOBAL_ENUM, LOCAL_ENUM, POS_TAG, SEGMENT_ID, ENTITY, NORMALIZATION, RELATION, EVENT, ATTRIBUTE, LOCAL_REF, GLOBAL_REF, UNKNOWN]
    · unfold getType
      dsimp only
      rw [if_neg (singleInv_ne_some i1 (by rw [hcol]; decide)),
        if_neg (singleInv_ne_some i2 (by rw [hcol]; decide)),
        if_neg (singleInv_ne_some i3 (by rw [hcol]; decide)),
        if_neg (singleInv_ne_some i4 (by rw [hcol]; decide)),
        if_neg (listInv_not_mem i5 (by rw [hcol]; decide)),
        if_pos ((i6 col).mpr ⟨hcl, hcol⟩)]
      simp [hcol, TOKEN, GLOBAL_ENUM, LOCAL_ENUM, POS_TAG, SEGMENT_ID, ENTITY, NORMALIZATION, RELATION, EVENT, ATTRIBUTE, LOCAL_REF, GLOBAL_REF, UNKNOWN]
    · unfold getType
      dsimp only
      rw [if_neg (singleInv_ne_some i1 (by rw [hcol]; decide)),
        if_neg (singleInv_ne_some i2 (by rw [hcol]; decide)),
        if_neg (singleInv_ne_some i3 (by rw [hcol]; decide)),
        if_neg (singleInv_ne_some i4 (by rw [hcol]; decide)),
        if_neg (listInv_not_mem i5 (by rw [hcol]; decide)),
        if_neg (listInv_not_mem i6 (by rw [hcol]; decide)),
        if_pos ((i7m col).mpr ⟨hcl, hcol⟩)]
      simp [hcol, TOKEN, GLOBAL_ENUM, LOCAL_ENUM, POS_TAG, SEGMENT_ID, ENTITY, NORMALIZATION, RELATION, EVENT, ATTRIBUTE, LOCAL_REF, GLOBAL_REF, UNKNOWN]
    · unfold getType
      dsimp only
      rw [if_neg (singleInv_ne_some i1 (by rw [hcol]; decide)),
        if_neg (singleInv_ne_some i2 (by rw [hcol]; decide)),
        if_neg (singleInv_ne_some i3 (by rw [hcol]; decide)),
        if_neg (singleInv_ne_some i4 (by rw [hcol]; decide)),
        if_neg (listInv_not_mem i5 (by rw [hcol]; decide)),
        if_neg (listInv_not_mem i6 (by rw [hcol]; decide)),
        if_neg (mapInv_not_isSome i7m (by rw [hcol]; decide)),
        if_pos ((i8 col).mpr ⟨hcl, hcol⟩)]
      simp [hcol, TOKEN, GLOBAL_ENUM, LOCAL_ENUM, POS_TAG, SEGMENT_ID, ENTITY, NORMALIZATION, RELATION, EVENT, ATTRIBUTE, LOCAL_REF, GLOBAL_REF, UNKNOWN]
    · unfold getType
      dsimp only
      rw [if_neg (singleInv_ne_some i1 (by rw [hcol]; decide)),
        if_neg (singleInv_ne_some i2 (by rw [hcol]; decide)),
        if_neg (singleInv_ne_some i3 (by rw [hcol]; decide)),
        if_neg (singleInv_ne_some i4 (by rw [hcol]; decide)),
        if_neg (listInv_not_mem i5 (by rw [hcol]; decide)),
        if_neg (listInv_not_mem i6 (by rw [hcol]; decide)),
        if_neg (mapInv_not_isSome i7m (by rw [hcol]; decide)),
        if_neg (mapInv_not_isSome i8 (by rw [hcol]; decide)),
        if_neg (mapInv_not_isSome i11 (by rw [hcol]; decide)),
        if_neg (mapInv_not_isSome i12 (by rw [hcol]; decide)),
        if_pos ((i9 col).mpr ⟨hcl, hcol⟩)]
      simp [hcol, TOKEN, GLOBAL_ENUM, LOCAL_ENUM, POS_TAG, SEGMENT_ID, ENTITY, NORMALIZATION, RELATION, EVENT, ATTRIBUTE, LOCAL_REF, GLOBAL_REF, UNKNOWN]
    · unfold getType
      dsimp only
      rw [if_neg (singleInv_ne_some i1 (by rw [hcol]; decide)),
        if_neg (singleInv_ne_some i2 (by rw [hcol]; decide)),
        if_neg (singleInv_ne_some i3 (by rw [hcol]; decide)),
        if_neg (singleInv_ne_some i4 (by rw [hcol]; decide)),
        if_neg (listInv_not_mem i5 (by rw [hcol]; decide)),
        if_neg (listInv_not_mem i6 (by rw [hcol]; decide)),
        if_neg (mapInv_not_isSome i7m (by rw [hcol]; decide)),
        if_neg (mapInv_not_isSome i8 (by rw [hcol]; decide)),
        if_neg (mapInv_not_isSome i11 (by rw [hcol]; decide)),
        if_neg (mapInv_not_isSome i12 (by rw [hcol]; decide)),
        if_neg (mapInv_not_isSome i9 (by rw [hcol]; decide)),
        if_pos ((i10 col).mpr ⟨hcl, hcol⟩)]
      simp [hcol, TOKEN, GLOBAL_ENUM, LOCAL_ENUM, POS_TAG, SEGMENT_ID, ENTITY, NORMALIZATION, RELATION, EVENT, ATTRIBUTE, LOCAL_REF, GLOBAL_REF, UNKNOWN]
    · unfold getType
      dsimp only
      rw [if_neg (singleInv_ne_some i1 (by rw [hcol]; decide)),
        if_neg (singleInv_ne_some i2 (by rw [hcol]; decide)),
        if_neg (singleInv_ne_some i3 (by rw [hcol]; decide)),
        if_neg (singleInv_ne_some i4 (by rw [hcol]; decide)),
        if_neg (listInv_not_mem i5 (by rw [hcol]; decide)),
        if_neg (listInv_not_mem i6 (by rw [hcol]; decide)),
        if_neg (mapInv_not_isSome i7m (by rw [hcol]; decide)),
        if_neg (mapInv_not_isSome i8 (by rw [hcol]; decide)),
        if_pos ((i11 col).mpr ⟨hcl, hcol⟩)]
      simp [hcol, TOKEN, GLOBAL_ENUM, LOCAL_ENUM, POS_TAG, SEGMENT_ID, ENTITY, NORMALIZATION, RELATION, EVENT, ATTRIBUTE, LOCAL_REF, GLOBAL_REF, UNKNOWN]
    · unfold getType
      dsimp only
      rw [if_neg (singleInv_ne_some i1 (by rw [hcol]; decide)),
        if_neg (singleInv_ne_some i2 (by rw [hcol]; decide)),
        if_neg (singleInv_ne_some i3 (by rw [hcol]; decide)),
        if_neg (singleInv_ne_some i4 (by rw [hcol]; decide)),
        if_neg (listInv_not_mem i5 (by rw [hcol]; decide)),
        if_neg (listInv_not_mem i6 (by rw [hcol]; decide)),
        if_neg (mapInv_not_isSome i7m (by rw [hcol]; decide)),
        if_neg (mapInv_not_isSome i8 (by rw [hcol]; decide)),
        if_neg (mapInv_not_isSome i11 (by rw [hcol]; decide)),
        if_pos ((i12 col).mpr ⟨hcl, hcol⟩)]
      simp [hcol, TOKEN, GLOBAL_ENUM, LOCAL_ENUM, POS_TAG, SEGMENT_ID, ENTITY, NORMALIZATION, RELATION, EVENT, ATTRIBUTE, LOCAL_REF, GLOBAL_REF, UNKNOWN]
    · unfold getType
      dsimp only
      rw [if_neg (singleInv_ne_some i1 (by rw [hcol]; decide)),
        if_neg (singleInv_ne_some i2 (by rw [hcol]; decide)),
        if_neg (singleInv_ne_some i3 (by rw [hcol]; decide)),
        if_neg (singleInv_ne_some i4 (by rw [hcol]; decide)),
        if_neg (listInv_not_mem i5 (by rw [hcol]; decide)),
        if_neg (listInv_not_mem i6 (by rw [hcol]; decide)),
        if_neg (mapInv_not_isSome i7m (by rw [hcol]; decide)),
        if_neg (mapInv_not_isSome i8 (by rw [hcol]; decide)),
        if_neg (mapInv_not_isSome i11 (by rw [hcol]; decide)),
        if_neg (mapInv_not_isSome i12 (by rw [hcol]; decide)),
        if_neg (mapInv_not_isSome i9 (by rw [hcol]; decide)),
        if_neg (mapInv_not_isSome i10 (by rw [hcol]; decide))]
      simp [hcol, TOKEN, GLOBAL_ENUM, LOCAL_ENUM, POS_TAG, SEGMENT_ID, ENTITY, NORMALIZATION, RELATION, EVENT, ATTRIBUTE, LOCAL_REF, GLOBAL_REF, UNKNOWN]

theorem strListAux_eq (spec : Colspec) (roles : List Nat)
    (hchar : ∀ col, getType spec col =
      (roles.get? col).bind (fun r => if r = UNKNOWN then none else some r)) :
    ∀ (fuel col : Nat), fuel = roles.length - col →
      strListAux spec col fuel =
        ((roles.drop col).takeWhile (fun r => !(r == UNKNOWN))).map
          nameOfRole := by
  intro fuel
  induction fuel with
  | zero =>
    intro col hf
    have hlen : roles.length ≤ col := by omega
    rw [List.drop_eq_nil_of_le hlen]
    rfl
  | succ fuel ih =>
    intro col hf
    have hcl : col < roles.length := by omega
    have hcol := List.get?_eq_get hcl
    have hdrop := List.drop_eq_get_cons hcl
    simp only [strListAux]
    rw [hchar col, hcol]
    simp only [Option.some_bind]
    by_cases hru : roles.get ⟨col, hcl⟩ = UNKNOWN
    · rw [if_pos hru, hdrop, List.takeWhile_cons]
      simp [hru]
      exact hru
    · rw [if_neg hru, hdrop, List.takeWhile_cons]
      have hb : (!(roles.get ⟨col, hcl⟩ == UNKNOWN)) = true := by
        simpa using hru
      rw [hb]
      simp only [List.map_cons, if_true]
      rw [ih (col + 1) (by omega)]

theorem roundtrip_names :
    ∀ (names : List String) (roles : List Nat),
      List.Forall₂ (fun nm r => NAMES.lookup (stripSuffix nm) = some r)
        names roles →
      (roles.takeWhile (fun r => !(r == UNKNOWN))).map nameOfRole =
        (names.map stripSuffix).takeWhile (fun n => !(n == "_UNKNOWN")) := by
  intro names roles h
  induction h with
  | nil => rfl
  | @cons nm r names2 roles2 hpair _ ih =>
    obtain ⟨hname, hiff, _⟩ := NAMES_lookup_spec _ _ hpair
    by_cases hru : r = UNKNOWN
    · have hnm : stripSuffix nm = "_UNKNOWN" := hiff.mp hru
      simp [List.takeWhile_cons, hru, hnm]
    · have hnm : ¬ stripSuffix nm = "_UNKNOWN" := fun he => hru (hiff.mpr he)
      simp [List.takeWhile_cons, hru, hnm, hname, ih]

/-- C4 (amended): for every header string the construction accepts, the
round trip `str(from_string(H))` yields the space-joined role names of `H`
up to the first `_UNKNOWN` column, with any `:N` suffixes dropped — so the
round trip is exact only for single-space headers without suffixes (and
without internal sentinel columns), and in particular not for the documented
example with `LOCAL_REF:5 LOCAL_REF:9`. -/
theorem c4_roundtrip_amended :
    ∀ (H : String) (spec : Colspec), fromString H = .ok spec →
      strOfColspec spec =
        " ".intercalate
          (((splitWs H).map stripSuffix).takeWhile
            (fun n => !(n == "_UNKNOWN"))) := by
  intro H spec h
  unfold fromString at h
  cases hp : parseColspec H with
  | error e => rw [hp] at h; cases h
  | ok roles =>
    rw [hp] at h
    dsimp only at h
    unfold mkColspec at h
    by_cases ha1 : roles.length ≤ 1
    · rw [if_pos ha1] at h; cases h
    rw [if_neg ha1] at h
    by_cases ha2 : roles.length ≠ (splitWs H).length
    · rw [if_pos ha2] at h; cases h
    rw [if_neg ha2] at h
    cases hb : buildFrom roles (splitWs H) 0 roles {} with
    | error e => rw [hb] at h; cases h
    | ok st =>
      rw [hb] at h
      dsimp only at h
      cases hev : initEvents roles st.eventsPending with
      | error e => rw [hev] at h; cases h
      | ok evs =>
        rw [hev] at h
        dsimp only at h
        injection h with h2
        subst h2
        have hF2 := parseColspecAux_spec (splitWs H) 0 roles hp
        obtain ⟨hInv, hNoAnnot⟩ :=
          buildFrom_inv roles (splitWs H) roles 0 {} st rfl
            (buildInv_zero roles) hb
        have hkeys := initEvents_keys roles st.eventsPending evs hev
        have hkn : ∀ i r2, roles.get? i = some r2 → knownRole r2 := by
          intro i r2 hget
          have hmem : r2 ∈ roles := List.get?_mem hget
          obtain ⟨nm, _, hrel⟩ := forall2_right_mem hF2 r2 hmem
          rcases (NAMES_lookup_spec _ _ hrel).2.2 with hann | hok
          · exact absurd hann (hNoAnnot i r2 (by omega) hget)
          · exact hok
        have hchar := getType_char roles st evs (by simpa using hInv) hkeys hkn
        unfold strOfColspec
        dsimp only
        rw [strListAux_eq _ roles hchar roles.length 0 (by omega)]
        rw [List.drop_zero]
        rw [roundtrip_names (splitWs H) roles hF2]

/-- Witness for C4 at the documented example header: the round trip yields
the suffix-stripped header. -/
theorem c4_roundtrip_amended_witness :
    strOfColspec
        ⟨9, some 1, none, none, some 2, [0], [5], [(8, (6, [7]))], [(4, 2)],
         [], [(3, 2), (6, 4), (7, 8)], [], []⟩ =
      " ".intercalate
        (((splitWs docHeader).map stripSuffix).takeWhile
          (fun n => !(n == "_UNKNOWN"))) :=
  c4_roundtrip_amended docHeader
    ⟨9, some 1, none, none, some 2, [0], [5], [(8, (6, [7]))], [(4, 2)],
     [], [(3, 2), (6, 4), (7, 8)], [], []⟩ rfl

end Otplc
